import Mathlib

/-
Verification of the rigid-body component system
(`src/framework/components/physics/rigidbody_system.js`).

The shallow embedding below translates the collision-event protocol of the
source file into pure Lean functions:

* `storeCollision`   embeds `_storeCollision` (durable map `collisions` and the
  per-frame map `frameCollisions`, both keyed by the entity guid);
* `createContactPointFromAmmo` / `createReverseContactPointFromAmmo` embed the
  two contact-point builders;
* `cleanOldCollisions` embeds `_cleanOldCollisions` (reconciliation/diff);
* `processManifold` / `onUpdate` embed the manifold loop of `onUpdate`
  (the event-derivation part; the transform synchronisation and the native
  `stepSimulation` call touch no state that the claims mention);
* `raycastFirst` embeds `raycastFirst`, recording callback invocations and
  releases of the native query object;
* `onRemove` embeds `onRemove` as a trace of native-side effects.

Fallible JavaScript property accesses (`e0.collision.hasEvent(...)` on an
entity without a collision component throws a TypeError) are modelled with
`Except Unit`: `.error ()` is an uncaught exception aborting the frame update.
Event firing is modelled by accumulating an ordered list of `Event` values.
-/

set_option maxHeartbeats 1000000

namespace RigidBody

/-- Vector with integer coordinates.  The embedding never computes with the
coordinates; only equality of stored values matters, so `Int` components keep
every definition decidable. -/
structure Vec3 where
  x : Int
  y : Int
  z : Int
deriving DecidableEq

/-- Data read from an Ammo `btManifoldPoint`: local points on bodies A and B,
world positions on A and B, and the world-space normal on B. -/
structure BtContactPoint where
  localPointA : Vec3
  localPointB : Vec3
  positionWorldOnA : Vec3
  positionWorldOnB : Vec3
  normalWorldOnB : Vec3
deriving DecidableEq

/-- `pc.fw.ContactPoint`: contact locations relative to the listening entity
and the other entity, in local and world space, plus the contact normal. -/
structure ContactPoint where
  localPoint : Vec3
  localPointOther : Vec3
  point : Vec3
  pointOther : Vec3
  normal : Vec3
deriving DecidableEq

/-- Embeds `_createContactPointFromAmmo`. -/
def createContactPointFromAmmo (cp : BtContactPoint) : ContactPoint :=
  { localPoint := cp.localPointA
    localPointOther := cp.localPointB
    point := cp.positionWorldOnA
    pointOther := cp.positionWorldOnB
    normal := cp.normalWorldOnB }

/-- Embeds `_createReverseContactPointFromAmmo`. -/
def createReverseContactPointFromAmmo (cp : BtContactPoint) : ContactPoint :=
  { localPointOther := cp.localPointA
    localPoint := cp.localPointB
    pointOther := cp.positionWorldOnA
    point := cp.positionWorldOnB
    normal := cp.normalWorldOnB }

/-- An entity as seen by this subsystem: its guid (`entity.getGuid()`), whether
`entity.collision` is present, the set of event names for which the collision
sub-component has listeners (`collision.hasEvent(name)`), and the presence of
`entity.rigidbody` and `entity.trigger`. -/
structure Entity where
  guid : Nat
  hasCollision : Bool
  collisionEvents : List String
  hasRigidbody : Bool
  hasTrigger : Bool
deriving DecidableEq

/-- `entity.collision.hasEvent(name)` for an entity whose collision
sub-component is present. -/
def hasEvtB (e : Entity) (name : String) : Bool :=
  decide (name ∈ e.collisionEvents)

/-- One collision-registry record: `{others: [...], entity: entity}`. -/
structure Entry where
  entity : Entity
  others : List Entity
deriving DecidableEq

/-- A collision registry (the JavaScript objects `collisions` and
`frameCollisions`), keyed by entity guid, insertion-ordered. -/
abbrev Registry := List Entry

/-- Lookup `registry[guid]` (first entry whose entity has the given guid). -/
def findEntry : Registry → Nat → Option Entry
  | [], _ => none
  | en :: r, g => if en.entity.guid = g then some en else findEntry r g

/-- Assignment `registry[guid] = entry`: replace the entry with that guid in
place, or append a fresh key. -/
def setEntry : Registry → Nat → Entry → Registry
  | [], _, en' => [en']
  | en :: r, g, en' => if en.entity.guid = g then en' :: r else en :: setEntry r g en'

/-- The pairing (a, b) is recorded: the entry keyed by `a`'s guid lists `b`
among its `others`. -/
def pairIn (r : Registry) (a b : Entity) : Bool :=
  match findEntry r a.guid with
  | some en => decide (b ∈ en.others)
  | none => false

/-- The mutable state touched by `_storeCollision`: the durable registry
(module variable `collisions`) and the this-frame registry (`frameCollisions`). -/
structure FrameState where
  collisions : Registry
  frameCollisions : Registry
deriving DecidableEq

/-- Embeds `_storeCollision(entity, other)`: ensure a durable entry for
`entity`, push `other` into its `others` if absent (this is the new-collision
test), unconditionally push `other` into the this-frame entry, and return
whether the pairing was new. -/
def storeCollision (st : FrameState) (entity other : Entity) : FrameState × Bool :=
  let cur : Entry :=
    match findEntry st.collisions entity.guid with
    | some en => en
    | none => { entity := entity, others := [] }
  let isNew : Bool := decide (other ∉ cur.others)
  let cur' : Entry :=
    if other ∈ cur.others then cur else { cur with others := cur.others ++ [other] }
  let fcur : Entry :=
    match findEntry st.frameCollisions entity.guid with
    | some en => en
    | none => { entity := entity, others := [] }
  ({ collisions := setEntry st.collisions entity.guid cur'
     frameCollisions :=
       setEntry st.frameCollisions entity.guid
         { fcur with others := fcur.others ++ [other] } },
   isNew)

/-- Events fired during a frame update, in firing order. -/
inductive Event where
  | contactGlobal (a b : Entity) (cp : ContactPoint)
  | contactEnt (entity other : Entity) (contacts : List ContactPoint)
  | collisionstart (entity other : Entity) (contacts : List ContactPoint)
  | collisionend (entity other : Entity)
  | triggerenter (entity other : Entity)
  | triggerleave (entity other : Entity)
deriving DecidableEq

/-- Matches a `collisionstart` event fired on `a` with payload entity `b`. -/
def isStartE (a b : Entity) : Event → Bool
  | .collisionstart x y _ => decide (x = a) && decide (y = b)
  | _ => false

/-- Matches a `triggerenter` event fired on `a` with payload `b`. -/
def isEnterE (a b : Entity) : Event → Bool
  | .triggerenter x y => decide (x = a) && decide (y = b)
  | _ => false

/-- Matches a `collisionend` event fired on `a` with payload `b`. -/
def isEndE (a b : Entity) : Event → Bool
  | .collisionend x y => decide (x = a) && decide (y = b)
  | _ => false

/-- Matches a `triggerleave` event fired on `a` with payload `b`. -/
def isLeaveE (a b : Entity) : Event → Bool
  | .triggerleave x y => decide (x = a) && decide (y = b)
  | _ => false

/-- Matches any `collisionend`/`triggerleave` event (the reconciliation kinds). -/
def isEndKindB : Event → Bool
  | .collisionend _ _ => true
  | .triggerleave _ _ => true
  | _ => false

/-- `pc.BODYFLAG_NORESPONSE_OBJECT` (`RIGIDBODY_CF_NORESPONSE_OBJECT = 4`). -/
def BODYFLAG_NORESPONSE_OBJECT : Nat := 4

/-- A body's collision flags carry the no-collision-response bit. -/
def noResp (flags : Nat) : Bool :=
  decide (flags &&& BODYFLAG_NORESPONSE_OBJECT ≠ 0)

/-- A contact manifold as enumerated from the dispatcher: the owning entities
resolved from the two bodies (`Ammo.castObject(body, btRigidBody).entity`,
which may be null), the two bodies' collision flags, and the contact points. -/
structure Manifold where
  e0 : Option Entity
  e1 : Option Entity
  flags0 : Nat
  flags1 : Nat
  contacts : List BtContactPoint
deriving DecidableEq

/-- One side of the trigger path: `_storeCollision` followed by a guarded
`triggerenter` (fired only for a new pairing when the listening side still has
a collision component and the opposite body is not a no-response object). -/
def triggerSide (st : FrameState) (e other : Entity) (otherFlags : Nat) :
    FrameState × List Event :=
  let r := storeCollision st e other
  (r.1,
   if r.2 && e.hasCollision && !noResp otherFlags then [.triggerenter e other] else [])

/-- One side of the collision path: fire `contact` with the accumulated
contact result, then `_storeCollision`, then a guarded `collisionstart`. -/
def collisionSide (st : FrameState) (e other : Entity) (cts : List ContactPoint) :
    FrameState × List Event :=
  let contactEvs := if e.hasCollision then [Event.contactEnt e other cts] else []
  let r := storeCollision st e other
  (r.1, contactEvs ++ (if r.2 && e.hasCollision then [Event.collisionstart e other cts] else []))

/-- The trigger branch of the manifold loop.  Both sides' listener queries
dereference `collision` and so abort the update with a TypeError when either
entity lacks its collision sub-component. -/
def processTrigger (st : FrameState) (e0 e1 : Entity) (flags0 flags1 : Nat) :
    Except Unit (FrameState × List Event) :=
  if e0.hasCollision = false then .error () else
  if e1.hasCollision = false then .error () else
  let e0Events := hasEvtB e0 "triggerenter" || hasEvtB e0 "triggerleave"
  let e1Events := hasEvtB e1 "triggerenter" || hasEvtB e1 "triggerleave"
  let p0 := if e0Events then triggerSide st e0 e1 flags1 else (st, [])
  let p1 := if e1Events then triggerSide p0.1 e1 e0 flags0 else (p0.1, [])
  .ok (p1.1, p0.2 ++ p1.2)

/-- The collision branch of the manifold loop: global `contact` events per
contact point, then the forward (entity 0) side, then the reverse (entity 1)
side.  The forward/reverse contact lists are built here eagerly; the source
builds them inside the contact loop under the same listener conditions that
gate their only uses, so the results coincide. -/
def processCollision (g : Bool) (st : FrameState) (e0 e1 : Entity)
    (contacts : List BtContactPoint) : Except Unit (FrameState × List Event) :=
  if e0.hasCollision = false then .error () else
  if e1.hasCollision = false then .error () else
  let e0Events := hasEvtB e0 "collisionstart" || hasEvtB e0 "collisionend" || hasEvtB e0 "contact"
  let e1Events := hasEvtB e1 "collisionstart" || hasEvtB e1 "collisionend" || hasEvtB e1 "contact"
  if g || e0Events || e1Events then
    let forwardContacts := contacts.map createContactPointFromAmmo
    let reverseContacts := contacts.map createReverseContactPointFromAmmo
    let globalEvs :=
      if g then contacts.map (fun cp => Event.contactGlobal e0 e1 (createContactPointFromAmmo cp))
      else []
    let p0 := if e0Events then collisionSide st e0 e1 forwardContacts else (st, [])
    let p1 := if e1Events then collisionSide p0.1 e1 e0 reverseContacts else (p0.1, [])
    .ok (p1.1, globalEvs ++ p0.2 ++ p1.2)
  else .ok (st, [])

/-- One iteration of the manifold loop in `onUpdate`: skip manifolds with an
unresolvable entity and manifolds without contact points, otherwise dispatch on
the no-collision-response flags. -/
def processManifold (g : Bool) (st : FrameState) (m : Manifold) :
    Except Unit (FrameState × List Event) :=
  match m.e0, m.e1 with
  | some e0, some e1 =>
    if 0 < m.contacts.length then
      if noResp m.flags0 || noResp m.flags1 then processTrigger st e0 e1 m.flags0 m.flags1
      else processCollision g st e0 e1 m.contacts
    else .ok (st, [])
  | _, _ => .ok (st, [])

/-- The whole manifold loop. -/
def processManifolds (g : Bool) (st : FrameState) :
    List Manifold → Except Unit (FrameState × List Event)
  | [] => .ok (st, [])
  | m :: ms =>
    match processManifold g st m with
    | .error e => .error e
    | .ok (st1, evs1) =>
      match processManifolds g st1 ms with
      | .error e => .error e
      | .ok (st2, evs2) => .ok (st2, evs1 ++ evs2)

/-- The this-frame membership test of `_cleanOldCollisions`:
`frameCollisions[guid] && frameCollisions[guid].others.indexOf(other) >= 0`. -/
def staysB (frame : Registry) (guid : Nat) (other : Entity) : Bool :=
  match findEntry frame guid with
  | some fe => decide (other ∈ fe.others)
  | none => false

/-- The events fired for one removed pairing in `_cleanOldCollisions`:
`collisionend` when both sides are rigid bodies, else `triggerleave` when the
owning entity is a trigger, guarded by both collision components being present. -/
def endEvents (entity other : Entity) : List Event :=
  if entity.hasCollision && other.hasCollision then
    if entity.hasRigidbody && other.hasRigidbody then [.collisionend entity other]
    else if entity.hasTrigger then [.triggerleave entity other]
    else []
  else []

/-- The inner `while (i--)` loop of `_cleanOldCollisions` over one entry's
`others`, iterated from the last index down: later indices are handled before
earlier ones, so events for higher indices fire first and the kept elements
retain their order. -/
def cleanOthers (frame : Registry) (entity : Entity) :
    List Entity → List Entity × List Event
  | [] => ([], [])
  | o :: rest =>
    let p := cleanOthers frame entity rest
    if staysB frame entity.guid o then (o :: p.1, p.2)
    else (p.1, p.2 ++ endEvents entity o)

/-- Embeds `_cleanOldCollisions`: diff every durable entry against the
this-frame registry, fire end events for vanished pairings, and drop entries
whose `others` became empty. -/
def cleanOldCollisions (frame : Registry) : Registry → Registry × List Event
  | [] => ([], [])
  | en :: rest =>
    let p := cleanOthers frame en.entity en.others
    let q := cleanOldCollisions frame rest
    (if p.1.isEmpty then q.1 else { en with others := p.1 } :: q.1, p.2 ++ q.2)

/-- The collision-event portion of `onUpdate`: reset `frameCollisions`, run the
manifold loop, then reconcile with `_cleanOldCollisions`.  `g` is
`this.hasEvent("contact")` (a listener on the global contact event); the input
registry is the durable `collisions` map carried over from the previous frame. -/
def onUpdate (g : Bool) (cols : Registry) (ms : List Manifold) :
    Except Unit (Registry × List Event) :=
  match processManifolds g { collisions := cols, frameCollisions := [] } ms with
  | .error e => .error e
  | .ok (st, evs) =>
    let q := cleanOldCollisions st.frameCollisions st.collisions
    .ok (q.1, evs ++ q.2)

/-- Owning-entity back-reference carried by an Ammo rigid body
(`body.entity`); absent when no component claimed the body. -/
structure BtBody where
  entity : Option Entity
deriving DecidableEq

/-- Outcome of the closest-hit ray test as read by `raycastFirst`: a miss, or
a hit carrying the result of `Ammo.castObject` (null when the cast fails) plus
the world hit point and normal. -/
inductive RayTestResult where
  | miss
  | hit (body : Option BtBody) (point : Vec3) (normal : Vec3)
deriving DecidableEq

/-- `pc.fw.RaycastResult` (entity may be absent when the body carried no
back-reference). -/
structure RaycastResult where
  entity : Option Entity
  point : Vec3
  normal : Vec3
deriving DecidableEq

/-- Embeds `raycastFirst`: the list of callback invocations in order, and the
number of `Ammo.destroy(rayCallback)` calls. -/
def raycastFirst (res : RayTestResult) : List RaycastResult × Nat :=
  match res with
  | .miss => ([], 1)
  | .hit body point normal =>
    match body with
    | some b => ([{ entity := b.entity, point := point, normal := normal }], 1)
    | none => ([], 1)

/-- Native-side effects performed by `onRemove`, in order. -/
inductive RemoveAction where
  | removeBody (body : Nat)
  | destroyBody (body : Nat)
  | nullRef
deriving DecidableEq

/-- The component data slice `onRemove` touches: the owned body handle. -/
structure RigidBodyComponentData where
  body : Option Nat
deriving DecidableEq

/-- Embeds `onRemove(entity, data)`: when a body is owned, remove it from the
world and destroy the native handle; always null the reference. -/
def onRemove (data : RigidBodyComponentData) : RigidBodyComponentData × List RemoveAction :=
  match data.body with
  | some b => ({ body := none }, [.removeBody b, .destroyBody b, .nullRef])
  | none => ({ body := none }, [.nullRef])

/-- The global `contact` events fired inside the contact-point loop (one per
contact point, before either entity side's events), when the system has a
global listener. -/
def globalEvsOf (g : Bool) (e0 e1 : Entity) (contacts : List BtContactPoint) : List Event :=
  if g then contacts.map (fun cp => Event.contactGlobal e0 e1 (createContactPointFromAmmo cp))
  else []

/-- The directed pairing (a, b) can be registered by this manifold: one of the
two `_storeCollision` calls the manifold loop may issue for it targets the
entry keyed by `a`'s guid with payload entity `b`. -/
def storesPair (m : Manifold) (a b : Entity) : Bool :=
  match m.e0, m.e1 with
  | some e0, some e1 =>
    (decide (e0.guid = a.guid) && decide (e1 = b)) ||
      (decide (e1.guid = a.guid) && decide (e0 = b))
  | _, _ => false

/-- The guid keys of a registry, in order. -/
def regGuids (r : Registry) : List Nat := r.map (fun en => en.entity.guid)

/-- Entity used by the concrete witnesses below. -/
def exEntityA : Entity :=
  { guid := 1, hasCollision := true, collisionEvents := ["collisionstart"],
    hasRigidbody := true, hasTrigger := false }

/-- World point used by the raycast witness. -/
def exP : Vec3 := ⟨1, 2, 3⟩

/-- World normal used by the raycast witness. -/
def exN : Vec3 := ⟨0, 1, 0⟩

/-- Second rigid-body entity used by concrete witnesses. -/
def exEntityB : Entity :=
  { guid := 2, hasCollision := true, collisionEvents := ["collisionstart"],
    hasRigidbody := true, hasTrigger := false }

/-- Trigger-volume entity (no rigidbody, marked as trigger, no listeners) used
by witnesses. -/
def exVolB : Entity :=
  { guid := 3, hasCollision := true, collisionEvents := [],
    hasRigidbody := false, hasTrigger := true }

/-- Trigger-volume entity with a `triggerenter` listener. -/
def exTrigA : Entity :=
  { guid := 4, hasCollision := true, collisionEvents := ["triggerenter"],
    hasRigidbody := false, hasTrigger := true }

/-- Concrete Ammo contact point used by witnesses. -/
def exCP : BtContactPoint :=
  { localPointA := ⟨1, 0, 0⟩, localPointB := ⟨2, 0, 0⟩,
    positionWorldOnA := ⟨3, 0, 0⟩, positionWorldOnB := ⟨4, 0, 0⟩,
    normalWorldOnB := ⟨0, 1, 0⟩ }

/-- Collision manifold between the two rigid-body entities. -/
def exManifold : Manifold :=
  { e0 := some exEntityA, e1 := some exEntityB, flags0 := 0, flags1 := 0,
    contacts := [exCP] }

/-- Trigger manifold in which both bodies carry the no-response flag. -/
def exTrigManifold : Manifold :=
  { e0 := some exTrigA, e1 := some exVolB, flags0 := 4, flags1 := 4,
    contacts := [exCP] }

/-- Trigger manifold in which only the listening side's body carries the
no-response flag. -/
def exTrigMixed : Manifold :=
  { e0 := some exTrigA, e1 := some exVolB, flags0 := 4, flags1 := 0,
    contacts := [exCP] }

/-! ### Registry lemmas -/

theorem findEntry_guid {r : Registry} {g : Nat} {en : Entry}
    (h : findEntry r g = some en) : en.entity.guid = g := by
  induction r with
  | nil => simp [findEntry] at h
  | cons a r ih =>
    by_cases hg : a.entity.guid = g
    · rw [findEntry, if_pos hg] at h
      cases h
      exact hg
    · rw [findEntry, if_neg hg] at h
      exact ih h

theorem findEntry_setEntry_self {r : Registry} {g : Nat} {en' : Entry}
    (h : en'.entity.guid = g) : findEntry (setEntry r g en') g = some en' := by
  induction r with
  | nil => simp [setEntry, findEntry, h]
  | cons a r ih =>
    by_cases hg : a.entity.guid = g
    · simp [setEntry, hg, findEntry, h]
    · simp [setEntry, hg, findEntry, ih]

theorem findEntry_setEntry_ne {r : Registry} {g g' : Nat} {en' : Entry}
    (hne : g' ≠ g) (h : en'.entity.guid = g) :
    findEntry (setEntry r g en') g' = findEntry r g' := by
  have h1 : en'.entity.guid ≠ g' := by
    rw [h]
    exact fun hh => hne hh.symm
  have h3 : g ≠ g' := fun hh => hne hh.symm
  induction r with
  | nil => simp [setEntry, findEntry, h1]
  | cons a r ih =>
    by_cases hg : a.entity.guid = g
    · have h2 : a.entity.guid ≠ g' := by
        rw [hg]
        exact fun hh => hne hh.symm
      simp [setEntry, hg, findEntry, h1, h2, h3]
    · by_cases hag : a.entity.guid = g'
      · simp [setEntry, hg, findEntry, hag, hne]
      · simp [setEntry, hg, findEntry, hag, ih]

theorem pairIn_iff {r : Registry} {a b : Entity} :
    pairIn r a b = true ↔ ∃ en, findEntry r a.guid = some en ∧ b ∈ en.others := by
  unfold pairIn
  cases h : findEntry r a.guid with
  | none => simp [h]
  | some en => simp [h]

theorem pairIn_eq_false {r : Registry} {a b : Entity} :
    pairIn r a b = false ↔ ∀ en, findEntry r a.guid = some en → b ∉ en.others := by
  rw [← Bool.not_eq_true, pairIn_iff]
  simp

theorem findEntry_eq_none {r : Registry} {g : Nat} :
    findEntry r g = none ↔ ∀ en ∈ r, en.entity.guid ≠ g := by
  induction r with
  | nil => simp [findEntry]
  | cons a r ih =>
    by_cases hg : a.entity.guid = g
    · simp [findEntry, hg]
    · simp [findEntry, hg, ih]

theorem pairIn_setEntry {r : Registry} {g : Nat} {en' : Entry}
    (hg : en'.entity.guid = g) (a b : Entity) :
    pairIn (setEntry r g en') a b =
      if g = a.guid then decide (b ∈ en'.others) else pairIn r a b := by
  by_cases h : g = a.guid
  · subst h
    rw [pairIn, findEntry_setEntry_self hg, if_pos rfl]
  · rw [pairIn, findEntry_setEntry_ne (fun hh => h hh.symm) hg, if_neg h, pairIn]

/-! ### `_storeCollision` lemmas -/

theorem storeCollision_isNew (st : FrameState) (e o : Entity) :
    (storeCollision st e o).2 = !pairIn st.collisions e o := by
  cases h : findEntry st.collisions e.guid with
  | none => simp [storeCollision, pairIn, h]
  | some en => simp [storeCollision, pairIn, h, decide_not]

theorem storeCollision_collisions_shape (st : FrameState) (e o : Entity) :
    ∃ cur' : Entry, (storeCollision st e o).1.collisions = setEntry st.collisions e.guid cur' ∧
      cur'.entity.guid = e.guid := by
  cases h : findEntry st.collisions e.guid with
  | none =>
    refine ⟨{ entity := e, others := [o] }, ?_, rfl⟩
    simp [storeCollision, h]
  | some en =>
    by_cases hm : o ∈ en.others
    · refine ⟨en, by simp [storeCollision, h, hm], ?_⟩
      exact findEntry_guid h
    · refine ⟨{ en with others := en.others ++ [o] }, by simp [storeCollision, h, hm], ?_⟩
      show en.entity.guid = e.guid
      exact findEntry_guid h

theorem storeCollision_pairIn_collisions (st : FrameState) (e o a b : Entity) :
    pairIn (storeCollision st e o).1.collisions a b =
      (pairIn st.collisions a b || (decide (e.guid = a.guid) && decide (o = b))) := by
  cases h : findEntry st.collisions e.guid with
  | none =>
    have hcol : (storeCollision st e o).1.collisions
        = setEntry st.collisions e.guid { entity := e, others := [o] } := by
      simp [storeCollision, h]
    have hgg : ({ entity := e, others := [o] } : Entry).entity.guid = e.guid := rfl
    rw [hcol, pairIn_setEntry hgg]
    by_cases hg : e.guid = a.guid
    · have hnone : findEntry st.collisions a.guid = none := by
        rw [← hg]
        exact h
      have hfalse : pairIn st.collisions a b = false := by
        rw [pairIn, hnone]
      rw [if_pos hg, hfalse]
      by_cases hob : o = b
      · subst hob
        simp [hg]
      · have hbo : ¬b = o := fun hh => hob hh.symm
        simp [hg, hob, hbo]
    · rw [if_neg hg]
      simp [hg]
  | some en =>
    have hfind : pairIn st.collisions a b =
        if e.guid = a.guid then decide (b ∈ en.others) else pairIn st.collisions a b := by
      by_cases hg : e.guid = a.guid
      · have : findEntry st.collisions a.guid = some en := by
          rw [← hg]
          exact h
        rw [if_pos hg, pairIn, this]
      · rw [if_neg hg]
    by_cases hm : o ∈ en.others
    · have hcol : (storeCollision st e o).1.collisions = setEntry st.collisions e.guid en := by
        simp [storeCollision, h, hm]
      rw [hcol, pairIn_setEntry (findEntry_guid h)]
      by_cases hg : e.guid = a.guid
      · rw [if_pos hg, hfind, if_pos hg]
        by_cases hob : o = b
        · subst hob
          simp [hg, hm]
        · simp [hg, hob]
      · rw [if_neg hg, hfind, if_neg hg]
        simp [hg]
    · have hcol : (storeCollision st e o).1.collisions
          = setEntry st.collisions e.guid { en with others := en.others ++ [o] } := by
        simp [storeCollision, h, hm]
      have hgg : ({ en with others := en.others ++ [o] } : Entry).entity.guid = e.guid := by
        show en.entity.guid = e.guid
        exact findEntry_guid h
      rw [hcol, pairIn_setEntry hgg]
      by_cases hg : e.guid = a.guid
      · rw [if_pos hg, hfind, if_pos hg]
        by_cases hob : o = b
        · subst hob
          simp [hg]
        · have hbo : ¬b = o := fun hh => hob hh.symm
          simp [hg, hob, hbo]
      · rw [if_neg hg, hfind, if_neg hg]
        simp [hg]

theorem storeCollision_pairIn_frame (st : FrameState) (e o a b : Entity) :
    pairIn (storeCollision st e o).1.frameCollisions a b =
      (pairIn st.frameCollisions a b || (decide (e.guid = a.guid) && decide (o = b))) := by
  cases h : findEntry st.frameCollisions e.guid with
  | none =>
    have hcol : (storeCollision st e o).1.frameCollisions
        = setEntry st.frameCollisions e.guid { entity := e, others := [o] } := by
      simp [storeCollision, h]
    have hgg : ({ entity := e, others := [o] } : Entry).entity.guid = e.guid := rfl
    rw [hcol, pairIn_setEntry hgg]
    by_cases hg : e.guid = a.guid
    · have hnone : findEntry st.frameCollisions a.guid = none := by
        rw [← hg]
        exact h
      have hfalse : pairIn st.frameCollisions a b = false := by
        rw [pairIn, hnone]
      rw [if_pos hg, hfalse]
      by_cases hob : o = b
      · subst hob
        simp [hg]
      · have hbo : ¬b = o := fun hh => hob hh.symm
        simp [hg, hob, hbo]
    · rw [if_neg hg]
      simp [hg]
  | some en =>
    have hcol : (storeCollision st e o).1.frameCollisions
        = setEntry st.frameCollisions e.guid { en with others := en.others ++ [o] } := by
      simp [storeCollision, h]
    have hgg : ({ en with others := en.others ++ [o] } : Entry).entity.guid = e.guid := by
      show en.entity.guid = e.guid
      exact findEntry_guid h
    rw [hcol, pairIn_setEntry hgg]
    by_cases hg : e.guid = a.guid
    · have hsome : findEntry st.frameCollisions a.guid = some en := by
        rw [← hg]
        exact h
      have hpi : pairIn st.frameCollisions a b = decide (b ∈ en.others) := by
        rw [pairIn, hsome]
      rw [if_pos hg, hpi]
      by_cases hob : o = b
      · subst hob
        simp [hg]
      · have hbo : ¬b = o := fun hh => hob hh.symm
        simp [hg, hob, hbo]
    · rw [if_neg hg]
      simp [hg]

theorem storeCollision_mono_collisions {st : FrameState} {a b : Entity} (e o : Entity)
    (h : pairIn st.collisions a b = true) :
    pairIn (storeCollision st e o).1.collisions a b = true := by
  rw [storeCollision_pairIn_collisions, h]
  simp

theorem storeCollision_mono_frame {st : FrameState} {a b : Entity} (e o : Entity)
    (h : pairIn st.frameCollisions a b = true) :
    pairIn (storeCollision st e o).1.frameCollisions a b = true := by
  rw [storeCollision_pairIn_frame, h]
  simp

theorem storeCollision_false_collisions {st : FrameState} {a b e o : Entity}
    (hne : ¬(e.guid = a.guid ∧ o = b)) (h : pairIn st.collisions a b = false) :
    pairIn (storeCollision st e o).1.collisions a b = false := by
  rw [storeCollision_pairIn_collisions, h]
  by_cases h1 : e.guid = a.guid
  · by_cases h2 : o = b
    · exact absurd ⟨h1, h2⟩ hne
    · simp [h1, h2]
  · simp [h1]

theorem storeCollision_false_frame {st : FrameState} {a b e o : Entity}
    (hne : ¬(e.guid = a.guid ∧ o = b)) (h : pairIn st.frameCollisions a b = false) :
    pairIn (storeCollision st e o).1.frameCollisions a b = false := by
  rw [storeCollision_pairIn_frame, h]
  by_cases h1 : e.guid = a.guid
  · by_cases h2 : o = b
    · exact absurd ⟨h1, h2⟩ hne
    · simp [h1, h2]
  · simp [h1]

theorem storeCollision_findEntry_ne {st : FrameState} {g : Nat} (e o : Entity)
    (hne : g ≠ e.guid) :
    findEntry (storeCollision st e o).1.collisions g = findEntry st.collisions g := by
  obtain ⟨cur', hcol, hg⟩ := storeCollision_collisions_shape st e o
  rw [hcol, findEntry_setEntry_ne hne hg]

theorem storeCollision_entryKeep {st : FrameState} {A B : Entity} {en : Entry} (e o : Entity)
    (hne : ¬(e.guid = A.guid ∧ o = B))
    (hfind : findEntry st.collisions A.guid = some en)
    (hent : en.entity = A) (hcount : en.others.count B = 1) :
    ∃ en', findEntry (storeCollision st e o).1.collisions A.guid = some en' ∧
      en'.entity = A ∧ en'.others.count B = 1 := by
  by_cases hg : e.guid = A.guid
  · have ho : o ≠ B := fun hh => hne ⟨hg, hh⟩
    have hfe : findEntry st.collisions e.guid = some en := by
      rw [hg]
      exact hfind
    have hgg : en.entity.guid = e.guid := findEntry_guid hfe
    by_cases hm : o ∈ en.others
    · have hcol : (storeCollision st e o).1.collisions = setEntry st.collisions e.guid en := by
        simp [storeCollision, hfe, hm]
      refine ⟨en, ?_, hent, hcount⟩
      rw [hcol, ← hg]
      exact findEntry_setEntry_self hgg
    · have hcol : (storeCollision st e o).1.collisions
          = setEntry st.collisions e.guid { en with others := en.others ++ [o] } := by
        simp [storeCollision, hfe, hm]
      refine ⟨{ en with others := en.others ++ [o] }, ?_, hent, ?_⟩
      · rw [hcol, ← hg]
        exact findEntry_setEntry_self hgg
      · have hbo : ¬B = o := fun hh => ho hh.symm
        have hz : List.count B [o] = 0 := by
          rw [List.count_eq_zero]
          simp [hbo]
        show (en.others ++ [o]).count B = 1
        rw [List.count_append, hz, hcount]
  · refine ⟨en, ?_, hent, hcount⟩
    rw [storeCollision_findEntry_ne e o (fun hh => hg hh.symm)]
    exact hfind

theorem setEntry_guids_replace {r : Registry} {g : Nat} {en en' : Entry}
    (h : findEntry r g = some en) (hg : en'.entity.guid = g) :
    regGuids (setEntry r g en') = regGuids r := by
  induction r with
  | nil => simp [findEntry] at h
  | cons a r ih =>
    by_cases hag : a.entity.guid = g
    · simp [setEntry, hag, regGuids, hg]
    · rw [findEntry, if_neg hag] at h
      simp only [setEntry, if_neg hag, regGuids, List.map_cons]
      have hh := ih h
      rw [regGuids, regGuids] at hh
      rw [hh]

theorem setEntry_guids_new {r : Registry} {g : Nat} {en' : Entry}
    (h : findEntry r g = none) : setEntry r g en' = r ++ [en'] := by
  induction r with
  | nil => simp [setEntry]
  | cons a r ih =>
    rw [findEntry] at h
    by_cases hag : a.entity.guid = g
    · rw [if_pos hag] at h
      cases h
    · rw [if_neg hag] at h
      simp [setEntry, hag, ih h]

theorem storeCollision_nodupGuids {st : FrameState} (e o : Entity)
    (h : (regGuids st.collisions).Nodup) :
    (regGuids (storeCollision st e o).1.collisions).Nodup := by
  obtain ⟨cur', hcol, hg⟩ := storeCollision_collisions_shape st e o
  rw [hcol]
  cases hf : findEntry st.collisions e.guid with
  | some en =>
    rw [setEntry_guids_replace hf hg]
    exact h
  | none =>
    rw [setEntry_guids_new hf]
    have hnot : e.guid ∉ regGuids st.collisions := by
      intro hmem
      rw [regGuids, List.mem_map] at hmem
      obtain ⟨en, hen, hgg⟩ := hmem
      exact (findEntry_eq_none.mp hf en hen) hgg
    rw [regGuids, List.map_append]
    rw [regGuids] at h hnot
    simp [List.nodup_append, h, hnot, hg]

/-! ### Claim C3 -/

/-- C3: the new-vs-existing test that gates `collisionstart`/`triggerenter` is
checked against the durable registry's content from before the
`_storeCollision` call (so "new" means the pairing was not already touching as
of the previous completed step, whose pairings the durable registry carries),
and once the flag is returned — i.e. whenever it is consulted by a caller —
the pairing has been inserted into the this-frame registry (and the durable
one). -/
theorem storeCollision_new_means_not_previously_touching (st : FrameState) (e o : Entity) :
    (storeCollision st e o).2 = !pairIn st.collisions e o ∧
    pairIn (storeCollision st e o).1.frameCollisions e o = true ∧
    pairIn (storeCollision st e o).1.collisions e o = true := by
  refine ⟨storeCollision_isNew st e o, ?_, ?_⟩
  · rw [storeCollision_pairIn_frame]
    simp
  · rw [storeCollision_pairIn_collisions]
    simp

/-! ### Claim C5 -/

/-- C5: for every manifold contact point, the forward and reverse
`ContactPoint`s swap their local and world points (`forward.point =
reverse.pointOther` and vice versa, likewise for the local points), while the
normal is the identical world-space on-B vector in both. -/
theorem contactPoint_forward_reverse_swap (cp : BtContactPoint) :
    (createContactPointFromAmmo cp).point = (createReverseContactPointFromAmmo cp).pointOther ∧
    (createContactPointFromAmmo cp).pointOther = (createReverseContactPointFromAmmo cp).point ∧
    (createContactPointFromAmmo cp).localPoint
      = (createReverseContactPointFromAmmo cp).localPointOther ∧
    (createContactPointFromAmmo cp).localPointOther
      = (createReverseContactPointFromAmmo cp).localPoint ∧
    (createContactPointFromAmmo cp).normal = (createReverseContactPointFromAmmo cp).normal ∧
    (createContactPointFromAmmo cp).normal = cp.normalWorldOnB :=
  ⟨rfl, rfl, rfl, rfl, rfl, rfl⟩

/-! ### Claim C6 -/

/-- C6: `raycastFirst` invokes the callback exactly once, with the owning
entity and the world hit point and normal, on a hit whose body resolves to an
owning entity; it never invokes the callback on a miss; and it releases the
native ray-query object exactly once on every path. -/
theorem raycastFirst_contract (res : RayTestResult) :
    (raycastFirst res).2 = 1 ∧
    (res = RayTestResult.miss → (raycastFirst res).1 = []) ∧
    (∀ b p n e, res = RayTestResult.hit (some b) p n → b.entity = some e →
      (raycastFirst res).1 = [{ entity := some e, point := p, normal := n }]) := by
  refine ⟨?_, ?_, ?_⟩
  · cases res with
    | miss => rfl
    | hit body p n => cases body <;> rfl
  · intro h
    subst h
    rfl
  · intro b p n e h hb
    subst h
    simp [raycastFirst, hb]

theorem raycastFirst_contract_witness :
    (raycastFirst (RayTestResult.hit (some ⟨some exEntityA⟩) exP exN)).2 = 1 ∧
    (raycastFirst (RayTestResult.hit (some ⟨some exEntityA⟩) exP exN)).1 =
      [{ entity := some exEntityA, point := exP, normal := exN }] ∧
    (raycastFirst RayTestResult.miss).1 = [] :=
  ⟨(raycastFirst_contract _).1,
   (raycastFirst_contract _).2.2 ⟨some exEntityA⟩ exP exN exEntityA rfl rfl,
   (raycastFirst_contract RayTestResult.miss).2.1 rfl⟩

/-! ### Claim C7 -/

/-- C7: `onRemove` removes the owned body from the world, then destroys the
native handle, then nulls the component's body reference, in that order; a
second call on the same component data performs no native operation and raises
no error (the function is total and only re-nulls the reference). -/
theorem onRemove_order_and_idempotent (data : RigidBodyComponentData) :
    (∀ b, data.body = some b →
      onRemove data =
        ({ body := none },
         [RemoveAction.removeBody b, RemoveAction.destroyBody b, RemoveAction.nullRef])) ∧
    onRemove (onRemove data).1 = ({ body := none }, [RemoveAction.nullRef]) := by
  constructor
  · intro b h
    simp [onRemove, h]
  · cases h : data.body <;> simp [onRemove, h]

theorem triggerSide_fst (st : FrameState) (e o : Entity) (f : Nat) :
    (triggerSide st e o f).1 = (storeCollision st e o).1 := rfl

theorem triggerSide_snd (st : FrameState) (e o : Entity) (f : Nat) :
    (triggerSide st e o f).2 =
      if (storeCollision st e o).2 && e.hasCollision && !noResp f
      then [Event.triggerenter e o] else [] := rfl

theorem collisionSide_fst (st : FrameState) (e o : Entity) (cts : List ContactPoint) :
    (collisionSide st e o cts).1 = (storeCollision st e o).1 := rfl

theorem collisionSide_snd (st : FrameState) (e o : Entity) (cts : List ContactPoint) :
    (collisionSide st e o cts).2 =
      (if e.hasCollision then [Event.contactEnt e o cts] else []) ++
      (if (storeCollision st e o).2 && e.hasCollision
       then [Event.collisionstart e o cts] else []) := rfl

/-- Reduction of `processManifold` when both entities resolve. -/
theorem processManifold_some {g : Bool} {st : FrameState} {m : Manifold} {e0 e1 : Entity}
    (h0 : m.e0 = some e0) (h1 : m.e1 = some e1) :
    processManifold g st m =
      if 0 < m.contacts.length then
        if noResp m.flags0 || noResp m.flags1 then processTrigger st e0 e1 m.flags0 m.flags1
        else processCollision g st e0 e1 m.contacts
      else .ok (st, []) := by
  unfold processManifold
  rw [h0, h1]

/-- Reduction of `processManifold` when an entity fails to resolve. -/
theorem processManifold_none {g : Bool} {st : FrameState} {m : Manifold}
    (h : m.e0 = none ∨ m.e1 = none) : processManifold g st m = .ok (st, []) := by
  unfold processManifold
  rcases h with h | h
  · rw [h]
  · rw [h]
    cases m.e0 <;> rfl

/-- Any state predicate preserved by the two possible `_storeCollision` calls
of the trigger branch is preserved by the branch. -/
theorem processTrigger_state_pres {st : FrameState} {e0 e1 : Entity} {f0 f1 : Nat}
    {st' : FrameState} {evs : List Event} {P : FrameState → Prop}
    (h : processTrigger st e0 e1 f0 f1 = .ok (st', evs)) (hP : P st)
    (hstep0 : ∀ s, P s → P (storeCollision s e0 e1).1)
    (hstep1 : ∀ s, P s → P (storeCollision s e1 e0).1) :
    P st' := by
  unfold processTrigger at h
  by_cases hc0 : e0.hasCollision = false
  · rw [if_pos hc0] at h
    simp at h
  · rw [if_neg hc0] at h
    by_cases hc1 : e1.hasCollision = false
    · rw [if_pos hc1] at h
      simp at h
    · rw [if_neg hc1] at h
      by_cases he0 : (hasEvtB e0 "triggerenter" || hasEvtB e0 "triggerleave") = true
      · by_cases he1 : (hasEvtB e1 "triggerenter" || hasEvtB e1 "triggerleave") = true
        · simp only [he0, he1, if_true, triggerSide_fst, Except.ok.injEq, Prod.mk.injEq] at h
          rw [← h.1]
          exact hstep1 _ (hstep0 _ hP)
        · rw [Bool.not_eq_true] at he1
          simp only [he0, he1, if_true, Bool.false_eq_true, if_false, triggerSide_fst,
            Except.ok.injEq, Prod.mk.injEq] at h
          rw [← h.1]
          exact hstep0 _ hP
      · rw [Bool.not_eq_true] at he0
        by_cases he1 : (hasEvtB e1 "triggerenter" || hasEvtB e1 "triggerleave") = true
        · simp only [he0, he1, if_true, Bool.false_eq_true, if_false, triggerSide_fst,
            Except.ok.injEq, Prod.mk.injEq] at h
          rw [← h.1]
          exact hstep1 _ hP
        · rw [Bool.not_eq_true] at he1
          simp only [he0, he1, Bool.false_eq_true, if_false, Except.ok.injEq,
            Prod.mk.injEq] at h
          rw [← h.1]
          exact hP

/-- Any state predicate preserved by the two possible `_storeCollision` calls
of the collision branch is preserved by the branch. -/
theorem processCollision_state_pres {g : Bool} {st : FrameState} {e0 e1 : Entity}
    {contacts : List BtContactPoint} {st' : FrameState} {evs : List Event}
    {P : FrameState → Prop}
    (h : processCollision g st e0 e1 contacts = .ok (st', evs)) (hP : P st)
    (hstep0 : ∀ s, P s → P (storeCollision s e0 e1).1)
    (hstep1 : ∀ s, P s → P (storeCollision s e1 e0).1) :
    P st' := by
  unfold processCollision at h
  by_cases hc0 : e0.hasCollision = false
  · rw [if_pos hc0] at h
    simp at h
  · rw [if_neg hc0] at h
    by_cases hc1 : e1.hasCollision = false
    · rw [if_pos hc1] at h
      simp at h
    · rw [if_neg hc1] at h
      by_cases hany : (g || (hasEvtB e0 "collisionstart" || hasEvtB e0 "collisionend"
          || hasEvtB e0 "contact") || (hasEvtB e1 "collisionstart"
          || hasEvtB e1 "collisionend" || hasEvtB e1 "contact")) = true
      · rw [if_pos hany] at h
        by_cases he0 : (hasEvtB e0 "collisionstart" || hasEvtB e0 "collisionend"
            || hasEvtB e0 "contact") = true
        · by_cases he1 : (hasEvtB e1 "collisionstart" || hasEvtB e1 "collisionend"
              || hasEvtB e1 "contact") = true
          · simp only [he0, he1, if_true, collisionSide_fst, Except.ok.injEq,
              Prod.mk.injEq] at h
            rw [← h.1]
            exact hstep1 _ (hstep0 _ hP)
          · rw [Bool.not_eq_true] at he1
            simp only [he0, he1, if_true, Bool.false_eq_true, if_false, collisionSide_fst,
              Except.ok.injEq, Prod.mk.injEq] at h
            rw [← h.1]
            exact hstep0 _ hP
        · rw [Bool.not_eq_true] at he0
          by_cases he1 : (hasEvtB e1 "collisionstart" || hasEvtB e1 "collisionend"
              || hasEvtB e1 "contact") = true
          · simp only [he0, he1, if_true, Bool.false_eq_true, if_false, collisionSide_fst,
              Except.ok.injEq, Prod.mk.injEq] at h
            rw [← h.1]
            exact hstep1 _ hP
          · rw [Bool.not_eq_true] at he1
            simp only [he0, he1, Bool.false_eq_true, if_false, Except.ok.injEq,
              Prod.mk.injEq] at h
            rw [← h.1]
            exact hP
      · rw [if_neg hany] at h
        simp only [Except.ok.injEq, Prod.mk.injEq] at h
        rw [← h.1]
        exact hP

/-- Any state predicate preserved by every `_storeCollision` call a manifold
can make (both directed orders of its entity pair) is preserved by
`processManifold`. -/
theorem processManifold_state_pres {g : Bool} {st : FrameState} {m : Manifold}
    {st' : FrameState} {evs : List Event} {P : FrameState → Prop}
    (h : processManifold g st m = .ok (st', evs)) (hP : P st)
    (hstep : ∀ s e other, P s →
      ((m.e0 = some e ∧ m.e1 = some other) ∨ (m.e0 = some other ∧ m.e1 = some e)) →
      P (storeCollision s e other).1) :
    P st' := by
  cases hm0 : m.e0 with
  | none =>
    rw [processManifold_none (Or.inl hm0)] at h
    simp at h
    rw [← h.1]
    exact hP
  | some e0 =>
    cases hm1 : m.e1 with
    | none =>
      rw [processManifold_none (Or.inr hm1)] at h
      simp at h
      rw [← h.1]
      exact hP
    | some e1 =>
      rw [processManifold_some hm0 hm1] at h
      by_cases hlen : 0 < m.contacts.length
      · rw [if_pos hlen] at h
        by_cases htr : (noResp m.flags0 || noResp m.flags1) = true
        · rw [if_pos htr] at h
          exact processTrigger_state_pres h hP
            (fun s hs => hstep s e0 e1 hs (Or.inl ⟨hm0, hm1⟩))
            (fun s hs => hstep s e1 e0 hs (Or.inr ⟨hm0, hm1⟩))
        · rw [if_neg htr] at h
          exact processCollision_state_pres h hP
            (fun s hs => hstep s e0 e1 hs (Or.inl ⟨hm0, hm1⟩))
            (fun s hs => hstep s e1 e0 hs (Or.inr ⟨hm0, hm1⟩))
      · rw [if_neg hlen] at h
        simp at h
        rw [← h.1]
        exact hP

theorem onRemove_order_and_idempotent_witness :
    onRemove { body := some 7 } =
      ({ body := none },
       [RemoveAction.removeBody 7, RemoveAction.destroyBody 7, RemoveAction.nullRef]) ∧
    onRemove (onRemove { body := some 7 }).1 = ({ body := none }, [RemoveAction.nullRef]) :=
  ⟨(onRemove_order_and_idempotent _).1 7 rfl, (onRemove_order_and_idempotent _).2⟩

/-! ### Branch shape lemmas -/

theorem processTrigger_ok_shape {st : FrameState} {e0 e1 : Entity} {f0 f1 : Nat}
    {st' : FrameState} {evs : List Event}
    (h : processTrigger st e0 e1 f0 f1 = .ok (st', evs)) :
    e0.hasCollision = true ∧ e1.hasCollision = true ∧
    (((hasEvtB e0 "triggerenter" || hasEvtB e0 "triggerleave") = true ∧
      (hasEvtB e1 "triggerenter" || hasEvtB e1 "triggerleave") = true ∧
      st' = (triggerSide (triggerSide st e0 e1 f1).1 e1 e0 f0).1 ∧
      evs = (triggerSide st e0 e1 f1).2 ++ (triggerSide (triggerSide st e0 e1 f1).1 e1 e0 f0).2) ∨
     ((hasEvtB e0 "triggerenter" || hasEvtB e0 "triggerleave") = true ∧
      (hasEvtB e1 "triggerenter" || hasEvtB e1 "triggerleave") = false ∧
      st' = (triggerSide st e0 e1 f1).1 ∧ evs = (triggerSide st e0 e1 f1).2) ∨
     ((hasEvtB e0 "triggerenter" || hasEvtB e0 "triggerleave") = false ∧
      (hasEvtB e1 "triggerenter" || hasEvtB e1 "triggerleave") = true ∧
      st' = (triggerSide st e1 e0 f0).1 ∧ evs = (triggerSide st e1 e0 f0).2) ∨
     ((hasEvtB e0 "triggerenter" || hasEvtB e0 "triggerleave") = false ∧
      (hasEvtB e1 "triggerenter" || hasEvtB e1 "triggerleave") = false ∧
      st' = st ∧ evs = [])) := by
  unfold processTrigger at h
  by_cases hc0 : e0.hasCollision = false
  · rw [if_pos hc0] at h
    simp at h
  · rw [if_neg hc0] at h
    by_cases hc1 : e1.hasCollision = false
    · rw [if_pos hc1] at h
      simp at h
    · rw [if_neg hc1] at h
      rw [Bool.not_eq_false] at hc0 hc1
      refine ⟨hc0, hc1, ?_⟩
      by_cases he0 : (hasEvtB e0 "triggerenter" || hasEvtB e0 "triggerleave") = true
      · by_cases he1 : (hasEvtB e1 "triggerenter" || hasEvtB e1 "triggerleave") = true
        · simp only [he0, he1, if_true, Except.ok.injEq, Prod.mk.injEq] at h
          exact Or.inl ⟨he0, he1, h.1.symm, h.2.symm⟩
        · rw [Bool.not_eq_true] at he1
          simp only [he0, he1, if_true, Bool.false_eq_true, if_false, List.append_nil,
            Except.ok.injEq, Prod.mk.injEq] at h
          exact Or.inr (Or.inl ⟨he0, he1, h.1.symm, h.2.symm⟩)
      · rw [Bool.not_eq_true] at he0
        by_cases he1 : (hasEvtB e1 "triggerenter" || hasEvtB e1 "triggerleave") = true
        · simp only [he0, he1, if_true, Bool.false_eq_true, if_false, List.nil_append,
            Except.ok.injEq, Prod.mk.injEq] at h
          exact Or.inr (Or.inr (Or.inl ⟨he0, he1, h.1.symm, h.2.symm⟩))
        · rw [Bool.not_eq_true] at he1
          simp only [he0, he1, Bool.false_eq_true, if_false, List.append_nil,
            Except.ok.injEq, Prod.mk.injEq] at h
          exact Or.inr (Or.inr (Or.inr ⟨he0, he1, h.1.symm, h.2.symm⟩))

theorem processCollision_ok_shape {g : Bool} {st : FrameState} {e0 e1 : Entity}
    {contacts : List BtContactPoint} {st' : FrameState} {evs : List Event}
    (h : processCollision g st e0 e1 contacts = .ok (st', evs)) :
    e0.hasCollision = true ∧ e1.hasCollision = true ∧
    (((hasEvtB e0 "collisionstart" || hasEvtB e0 "collisionend" || hasEvtB e0 "contact") = true ∧
      (hasEvtB e1 "collisionstart" || hasEvtB e1 "collisionend" || hasEvtB e1 "contact") = true ∧
      st' = (collisionSide (collisionSide st e0 e1
               (contacts.map createContactPointFromAmmo)).1 e1 e0
               (contacts.map createReverseContactPointFromAmmo)).1 ∧
      evs = globalEvsOf g e0 e1 contacts ++
        (collisionSide st e0 e1 (contacts.map createContactPointFromAmmo)).2 ++
        (collisionSide (collisionSide st e0 e1 (contacts.map createContactPointFromAmmo)).1
          e1 e0 (contacts.map createReverseContactPointFromAmmo)).2) ∨
     ((hasEvtB e0 "collisionstart" || hasEvtB e0 "collisionend" || hasEvtB e0 "contact") = true ∧
      (hasEvtB e1 "collisionstart" || hasEvtB e1 "collisionend" || hasEvtB e1 "contact") = false ∧
      st' = (collisionSide st e0 e1 (contacts.map createContactPointFromAmmo)).1 ∧
      evs = globalEvsOf g e0 e1 contacts ++
        (collisionSide st e0 e1 (contacts.map createContactPointFromAmmo)).2) ∨
     ((hasEvtB e0 "collisionstart" || hasEvtB e0 "collisionend" || hasEvtB e0 "contact") = false ∧
      (hasEvtB e1 "collisionstart" || hasEvtB e1 "collisionend" || hasEvtB e1 "contact") = true ∧
      st' = (collisionSide st e1 e0 (contacts.map createReverseContactPointFromAmmo)).1 ∧
      evs = globalEvsOf g e0 e1 contacts ++
        (collisionSide st e1 e0 (contacts.map createReverseContactPointFromAmmo)).2) ∨
     ((hasEvtB e0 "collisionstart" || hasEvtB e0 "collisionend" || hasEvtB e0 "contact") = false ∧
      (hasEvtB e1 "collisionstart" || hasEvtB e1 "collisionend" || hasEvtB e1 "contact") = false ∧
      st' = st ∧ evs = globalEvsOf g e0 e1 contacts)) := by
  unfold processCollision at h
  by_cases hc0 : e0.hasCollision = false
  · rw [if_pos hc0] at h
    simp at h
  · rw [if_neg hc0] at h
    by_cases hc1 : e1.hasCollision = false
    · rw [if_pos hc1] at h
      simp at h
    · rw [if_neg hc1] at h
      rw [Bool.not_eq_false] at hc0 hc1
      refine ⟨hc0, hc1, ?_⟩
      by_cases hany : (g || (hasEvtB e0 "collisionstart" || hasEvtB e0 "collisionend"
          || hasEvtB e0 "contact") || (hasEvtB e1 "collisionstart"
          || hasEvtB e1 "collisionend" || hasEvtB e1 "contact")) = true
      · rw [if_pos hany] at h
        by_cases he0 : (hasEvtB e0 "collisionstart" || hasEvtB e0 "collisionend"
            || hasEvtB e0 "contact") = true
        · by_cases he1 : (hasEvtB e1 "collisionstart" || hasEvtB e1 "collisionend"
              || hasEvtB e1 "contact") = true
          · simp only [he0, he1, if_true, Except.ok.injEq, Prod.mk.injEq] at h
            refine Or.inl ⟨he0, he1, h.1.symm, ?_⟩
            rw [← h.2, globalEvsOf, List.append_assoc]
          · rw [Bool.not_eq_true] at he1
            simp only [he0, he1, if_true, Bool.false_eq_true, if_false, List.append_nil,
              Except.ok.injEq, Prod.mk.injEq] at h
            refine Or.inr (Or.inl ⟨he0, he1, h.1.symm, ?_⟩)
            rw [← h.2, globalEvsOf]
        · rw [Bool.not_eq_true] at he0
          by_cases he1 : (hasEvtB e1 "collisionstart" || hasEvtB e1 "collisionend"
              || hasEvtB e1 "contact") = true
          · simp only [he0, he1, if_true, Bool.false_eq_true, if_false, List.nil_append,
              Except.ok.injEq, Prod.mk.injEq] at h
            refine Or.inr (Or.inr (Or.inl ⟨he0, he1, h.1.symm, ?_⟩))
            rw [← h.2, globalEvsOf, List.append_nil]
          · rw [Bool.not_eq_true] at he1
            simp only [he0, he1, Bool.false_eq_true, if_false, List.append_nil,
              Except.ok.injEq, Prod.mk.injEq] at h
            refine Or.inr (Or.inr (Or.inr ⟨he0, he1, h.1.symm, ?_⟩))
            rw [← h.2, globalEvsOf]
      · rw [if_neg hany] at h
        simp only [Except.ok.injEq, Prod.mk.injEq] at h
        rw [Bool.not_eq_true, Bool.or_eq_false_iff, Bool.or_eq_false_iff] at hany
        refine Or.inr (Or.inr (Or.inr ⟨hany.1.2, hany.2, h.1.symm, ?_⟩))
        rw [← h.2, globalEvsOf, hany.1.1]
        rfl

/-! ### Per-side event count lemmas -/

theorem storeCollision_self_collisions (st : FrameState) (e o : Entity) :
    pairIn (storeCollision st e o).1.collisions e o = true := by
  rw [storeCollision_pairIn_collisions]
  simp

theorem storeCollision_self_frame (st : FrameState) (e o : Entity) :
    pairIn (storeCollision st e o).1.frameCollisions e o = true := by
  rw [storeCollision_pairIn_frame]
  simp

theorem triggerSide_countStart (st : FrameState) (e o A B : Entity) (f : Nat) :
    List.countP (isStartE A B) (triggerSide st e o f).2 = 0 := by
  rw [triggerSide_snd]
  split <;> simp [isStartE, List.countP_cons]

theorem triggerSide_no_end (st : FrameState) (e o : Entity) (f : Nat) :
    ∀ ev ∈ (triggerSide st e o f).2, isEndKindB ev = false := by
  rw [triggerSide_snd]
  split
  · intro ev hev
    rw [List.mem_singleton] at hev
    subst hev
    rfl
  · intro ev hev
    simp at hev

theorem triggerSide_countEnter_reg {st : FrameState} {A B : Entity} (e o : Entity) (f : Nat)
    (hreg : pairIn st.collisions A B = true) :
    List.countP (isEnterE A B) (triggerSide st e o f).2 = 0 := by
  rw [triggerSide_snd]
  by_cases he : e = A
  · subst he
    by_cases ho : o = B
    · subst ho
      rw [storeCollision_isNew, hreg]
      simp
    · split <;> simp [isEnterE, List.countP_cons, ho]
  · split <;> simp [isEnterE, List.countP_cons, he]

theorem collisionSide_countEnter (st : FrameState) (e o A B : Entity)
    (cts : List ContactPoint) :
    List.countP (isEnterE A B) (collisionSide st e o cts).2 = 0 := by
  rw [collisionSide_snd, List.countP_append]
  have h1 : List.countP (isEnterE A B)
      (if e.hasCollision then [Event.contactEnt e o cts] else []) = 0 := by
    split <;> simp [isEnterE, List.countP_cons]
  have h2 : List.countP (isEnterE A B)
      (if (storeCollision st e o).2 && e.hasCollision
       then [Event.collisionstart e o cts] else []) = 0 := by
    split <;> simp [isEnterE, List.countP_cons]
  rw [h1, h2]

theorem collisionSide_no_end (st : FrameState) (e o : Entity) (cts : List ContactPoint) :
    ∀ ev ∈ (collisionSide st e o cts).2, isEndKindB ev = false := by
  rw [collisionSide_snd]
  intro ev hev
  rw [List.mem_append] at hev
  rcases hev with hev | hev
  · revert hev
    split
    · intro hev
      rw [List.mem_singleton] at hev
      subst hev
      rfl
    · intro hev
      simp at hev
  · revert hev
    split
    · intro hev
      rw [List.mem_singleton] at hev
      subst hev
      rfl
    · intro hev
      simp at hev

theorem countP_ite_singleton (p : Event → Bool) (c : Prop) [Decidable c] (ev : Event) :
    List.countP p (if c then [ev] else []) =
      if c then (if p ev = true then 1 else 0) else 0 := by
  split <;> simp [List.countP_cons]

theorem collisionSide_countStart_reg {st : FrameState} {A B : Entity} (e o : Entity)
    (cts : List ContactPoint) (hreg : pairIn st.collisions A B = true) :
    List.countP (isStartE A B) (collisionSide st e o cts).2 = 0 := by
  rw [collisionSide_snd, List.countP_append, countP_ite_singleton, countP_ite_singleton]
  by_cases he : e = A
  · subst he
    by_cases ho : o = B
    · subst ho
      rw [storeCollision_isNew, hreg]
      simp [isStartE]
    · simp [isStartE, ho]
  · simp [isStartE, he]

theorem collisionSide_flip {st : FrameState} {A B : Entity} (e o : Entity)
    (cts : List ContactPoint) (hec : e.hasCollision = true)
    (hinj : e.guid = A.guid → e = A)
    (hnew : pairIn st.collisions A B = false) :
    List.countP (isStartE A B) (collisionSide st e o cts).2 =
      (if pairIn (collisionSide st e o cts).1.collisions A B = true then 1 else 0) := by
  rw [collisionSide_snd, collisionSide_fst, List.countP_append, countP_ite_singleton,
    countP_ite_singleton, storeCollision_pairIn_collisions, hnew]
  by_cases hg : e.guid = A.guid
  · have heA : e = A := hinj hg
    subst heA
    by_cases ho : o = B
    · subst ho
      rw [storeCollision_isNew, hnew]
      simp [hec, isStartE]
    · rw [storeCollision_isNew]
      simp [isStartE, ho]
  · have heA : ¬e = A := fun hh => hg (by rw [hh])
    simp [isStartE, heA, hg]

/-! ### Trigger-branch event lemmas -/

theorem globalEvsOf_countP (g : Bool) (e0 e1 : Entity) (contacts : List BtContactPoint)
    (p : Event → Bool) (hp : ∀ a b cp, p (Event.contactGlobal a b cp) = false) :
    List.countP p (globalEvsOf g e0 e1 contacts) = 0 := by
  rw [globalEvsOf]
  split
  · rw [List.countP_eq_zero]
    intro ev hev
    rw [List.mem_map] at hev
    obtain ⟨cp, _, hcp⟩ := hev
    subst hcp
    rw [hp]
    simp
  · rfl

theorem globalEvsOf_no_end (g : Bool) (e0 e1 : Entity) (contacts : List BtContactPoint) :
    ∀ ev ∈ globalEvsOf g e0 e1 contacts, isEndKindB ev = false := by
  rw [globalEvsOf]
  split
  · intro ev hev
    rw [List.mem_map] at hev
    obtain ⟨cp, _, hcp⟩ := hev
    subst hcp
    rfl
  · intro ev hev
    simp at hev

theorem processTrigger_registered {st : FrameState} {e0 e1 : Entity} {f0 f1 : Nat}
    {st' : FrameState} {evs : List Event} {A B : Entity}
    (h : processTrigger st e0 e1 f0 f1 = .ok (st', evs))
    (hreg : pairIn st.collisions A B = true) :
    List.countP (isStartE A B) evs = 0 ∧ List.countP (isEnterE A B) evs = 0 := by
  obtain ⟨hc0, hc1, hsh⟩ := processTrigger_ok_shape h
  have hreg1 : pairIn (triggerSide st e0 e1 f1).1.collisions A B = true := by
    rw [triggerSide_fst]
    exact storeCollision_mono_collisions _ _ hreg
  rcases hsh with ⟨hb0, hb1, hst, hevs⟩ | ⟨hb0, hb1, hst, hevs⟩ |
    ⟨hb0, hb1, hst, hevs⟩ | ⟨hb0, hb1, hst, hevs⟩ <;> subst hevs
  · rw [List.countP_append, List.countP_append]
    constructor
    · rw [triggerSide_countStart, triggerSide_countStart]
    · rw [triggerSide_countEnter_reg _ _ _ hreg, triggerSide_countEnter_reg _ _ _ hreg1]
  · exact ⟨triggerSide_countStart _ _ _ _ _ _, triggerSide_countEnter_reg _ _ _ hreg⟩
  · exact ⟨triggerSide_countStart _ _ _ _ _ _, triggerSide_countEnter_reg _ _ _ hreg⟩
  · exact ⟨rfl, rfl⟩

theorem processTrigger_no_end {st : FrameState} {e0 e1 : Entity} {f0 f1 : Nat}
    {st' : FrameState} {evs : List Event}
    (h : processTrigger st e0 e1 f0 f1 = .ok (st', evs)) :
    ∀ ev ∈ evs, isEndKindB ev = false := by
  obtain ⟨hc0, hc1, hsh⟩ := processTrigger_ok_shape h
  rcases hsh with ⟨hb0, hb1, hst, hevs⟩ | ⟨hb0, hb1, hst, hevs⟩ |
    ⟨hb0, hb1, hst, hevs⟩ | ⟨hb0, hb1, hst, hevs⟩ <;> subst hevs
  · intro ev hev
    rw [List.mem_append] at hev
    rcases hev with hev | hev
    · exact triggerSide_no_end _ _ _ _ ev hev
    · exact triggerSide_no_end _ _ _ _ ev hev
  · exact triggerSide_no_end _ _ _ _
  · exact triggerSide_no_end _ _ _ _
  · intro ev hev
    simp at hev

theorem processTrigger_countStart_zero {st : FrameState} {e0 e1 : Entity} {f0 f1 : Nat}
    {st' : FrameState} {evs : List Event} (A B : Entity)
    (h : processTrigger st e0 e1 f0 f1 = .ok (st', evs)) :
    List.countP (isStartE A B) evs = 0 := by
  obtain ⟨hc0, hc1, hsh⟩ := processTrigger_ok_shape h
  rcases hsh with ⟨hb0, hb1, hst, hevs⟩ | ⟨hb0, hb1, hst, hevs⟩ |
    ⟨hb0, hb1, hst, hevs⟩ | ⟨hb0, hb1, hst, hevs⟩ <;> subst hevs
  · rw [List.countP_append, triggerSide_countStart, triggerSide_countStart]
  · exact triggerSide_countStart _ _ _ _ _ _
  · exact triggerSide_countStart _ _ _ _ _ _
  · rfl

theorem processTrigger_stores0 {st : FrameState} {e0 e1 : Entity} {f0 f1 : Nat}
    {st' : FrameState} {evs : List Event}
    (h : processTrigger st e0 e1 f0 f1 = .ok (st', evs))
    (hb0 : (hasEvtB e0 "triggerenter" || hasEvtB e0 "triggerleave") = true) :
    pairIn st'.collisions e0 e1 = true ∧ pairIn st'.frameCollisions e0 e1 = true := by
  obtain ⟨hc0, hc1, hsh⟩ := processTrigger_ok_shape h
  rcases hsh with ⟨hb0', hb1, hst, hevs⟩ | ⟨hb0', hb1, hst, hevs⟩ |
    ⟨hb0', hb1, hst, hevs⟩ | ⟨hb0', hb1, hst, hevs⟩
  · subst hst
    rw [triggerSide_fst, triggerSide_fst]
    exact ⟨storeCollision_mono_collisions _ _ (storeCollision_self_collisions st e0 e1),
      storeCollision_mono_frame _ _ (storeCollision_self_frame st e0 e1)⟩
  · subst hst
    rw [triggerSide_fst]
    exact ⟨storeCollision_self_collisions st e0 e1, storeCollision_self_frame st e0 e1⟩
  · rw [hb0] at hb0'
    cases hb0'
  · rw [hb0] at hb0'
    cases hb0'

/-! ### Collision-branch event lemmas -/

theorem isStartE_contactGlobal (A B a b : Entity) (cp : ContactPoint) :
    isStartE A B (Event.contactGlobal a b cp) = false := rfl

theorem isEnterE_contactGlobal (A B a b : Entity) (cp : ContactPoint) :
    isEnterE A B (Event.contactGlobal a b cp) = false := rfl

theorem processCollision_registered {g : Bool} {st : FrameState} {e0 e1 : Entity}
    {contacts : List BtContactPoint} {st' : FrameState} {evs : List Event} {A B : Entity}
    (h : processCollision g st e0 e1 contacts = .ok (st', evs))
    (hreg : pairIn st.collisions A B = true) :
    List.countP (isStartE A B) evs = 0 ∧ List.countP (isEnterE A B) evs = 0 := by
  obtain ⟨hc0, hc1, hsh⟩ := processCollision_ok_shape h
  have hgl0 : List.countP (isStartE A B) (globalEvsOf g e0 e1 contacts) = 0 :=
    globalEvsOf_countP _ _ _ _ _ (fun a b cp => isStartE_contactGlobal A B a b cp)
  have hgl1 : List.countP (isEnterE A B) (globalEvsOf g e0 e1 contacts) = 0 :=
    globalEvsOf_countP _ _ _ _ _ (fun a b cp => isEnterE_contactGlobal A B a b cp)
  have hreg1 : pairIn (collisionSide st e0 e1
      (contacts.map createContactPointFromAmmo)).1.collisions A B = true := by
    rw [collisionSide_fst]
    exact storeCollision_mono_collisions _ _ hreg
  rcases hsh with ⟨hb0, hb1, hst, hevs⟩ | ⟨hb0, hb1, hst, hevs⟩ |
    ⟨hb0, hb1, hst, hevs⟩ | ⟨hb0, hb1, hst, hevs⟩ <;> subst hevs
  · rw [List.countP_append, List.countP_append, List.countP_append, List.countP_append,
      hgl0, hgl1]
    exact ⟨by rw [collisionSide_countStart_reg _ _ _ hreg, collisionSide_countStart_reg _ _ _ hreg1],
      by rw [collisionSide_countEnter, collisionSide_countEnter]⟩
  · rw [List.countP_append, List.countP_append, hgl0, hgl1]
    exact ⟨by rw [collisionSide_countStart_reg _ _ _ hreg],
      by rw [collisionSide_countEnter]⟩
  · rw [List.countP_append, List.countP_append, hgl0, hgl1]
    exact ⟨by rw [collisionSide_countStart_reg _ _ _ hreg],
      by rw [collisionSide_countEnter]⟩
  · exact ⟨hgl0, hgl1⟩

theorem processCollision_no_end {g : Bool} {st : FrameState} {e0 e1 : Entity}
    {contacts : List BtContactPoint} {st' : FrameState} {evs : List Event}
    (h : processCollision g st e0 e1 contacts = .ok (st', evs)) :
    ∀ ev ∈ evs, isEndKindB ev = false := by
  obtain ⟨hc0, hc1, hsh⟩ := processCollision_ok_shape h
  rcases hsh with ⟨hb0, hb1, hst, hevs⟩ | ⟨hb0, hb1, hst, hevs⟩ |
    ⟨hb0, hb1, hst, hevs⟩ | ⟨hb0, hb1, hst, hevs⟩ <;> subst hevs <;> intro ev hev
  · rw [List.mem_append] at hev
    rcases hev with hev | hev
    · rw [List.mem_append] at hev
      rcases hev with hev | hev
      · exact globalEvsOf_no_end _ _ _ _ ev hev
      · exact collisionSide_no_end _ _ _ _ ev hev
    · exact collisionSide_no_end _ _ _ _ ev hev
  · rw [List.mem_append] at hev
    rcases hev with hev | hev
    · exact globalEvsOf_no_end _ _ _ _ ev hev
    · exact collisionSide_no_end _ _ _ _ ev hev
  · rw [List.mem_append] at hev
    rcases hev with hev | hev
    · exact globalEvsOf_no_end _ _ _ _ ev hev
    · exact collisionSide_no_end _ _ _ _ ev hev
  · exact globalEvsOf_no_end _ _ _ _ ev hev

theorem processCollision_countEnter_zero {g : Bool} {st : FrameState} {e0 e1 : Entity}
    {contacts : List BtContactPoint} {st' : FrameState} {evs : List Event} (A B : Entity)
    (h : processCollision g st e0 e1 contacts = .ok (st', evs)) :
    List.countP (isEnterE A B) evs = 0 := by
  obtain ⟨hc0, hc1, hsh⟩ := processCollision_ok_shape h
  have hgl1 : List.countP (isEnterE A B) (globalEvsOf g e0 e1 contacts) = 0 :=
    globalEvsOf_countP _ _ _ _ _ (fun a b cp => isEnterE_contactGlobal A B a b cp)
  rcases hsh with ⟨hb0, hb1, hst, hevs⟩ | ⟨hb0, hb1, hst, hevs⟩ |
    ⟨hb0, hb1, hst, hevs⟩ | ⟨hb0, hb1, hst, hevs⟩ <;> subst hevs
  · rw [List.countP_append, List.countP_append, hgl1, collisionSide_countEnter,
      collisionSide_countEnter]
  · rw [List.countP_append, hgl1, collisionSide_countEnter]
  · rw [List.countP_append, hgl1, collisionSide_countEnter]
  · exact hgl1

theorem processCollision_flip {g : Bool} {st : FrameState} {e0 e1 : Entity}
    {contacts : List BtContactPoint} {st' : FrameState} {evs : List Event} {A B : Entity}
    (h : processCollision g st e0 e1 contacts = .ok (st', evs))
    (hinj0 : e0.guid = A.guid → e0 = A) (hinj1 : e1.guid = A.guid → e1 = A)
    (hnew : pairIn st.collisions A B = false) :
    List.countP (isStartE A B) evs = (if pairIn st'.collisions A B = true then 1 else 0) := by
  obtain ⟨hc0, hc1, hsh⟩ := processCollision_ok_shape h
  have hgl0 : List.countP (isStartE A B) (globalEvsOf g e0 e1 contacts) = 0 :=
    globalEvsOf_countP _ _ _ _ _ (fun a b cp => isStartE_contactGlobal A B a b cp)
  rcases hsh with ⟨hb0, hb1, hst, hevs⟩ | ⟨hb0, hb1, hst, hevs⟩ |
    ⟨hb0, hb1, hst, hevs⟩ | ⟨hb0, hb1, hst, hevs⟩ <;> subst hevs <;> subst hst
  · rw [List.countP_append, List.countP_append, hgl0]
    cases hc1' : pairIn (collisionSide st e0 e1
        (contacts.map createContactPointFromAmmo)).1.collisions A B with
    | true =>
      rw [collisionSide_countStart_reg _ _ _ hc1']
      have hfl := collisionSide_flip e0 e1 (contacts.map createContactPointFromAmmo)
        hc0 hinj0 hnew
      rw [hc1'] at hfl
      rw [hfl]
      have hfinal : pairIn (collisionSide (collisionSide st e0 e1
          (contacts.map createContactPointFromAmmo)).1 e1 e0
          (contacts.map createReverseContactPointFromAmmo)).1.collisions A B = true := by
        rw [collisionSide_fst]
        exact storeCollision_mono_collisions _ _ hc1'
      rw [hfinal]
      simp
    | false =>
      have hfl := collisionSide_flip e0 e1 (contacts.map createContactPointFromAmmo)
        hc0 hinj0 hnew
      rw [hc1'] at hfl
      rw [hfl]
      have hfl2 := collisionSide_flip e1 e0 (contacts.map createReverseContactPointFromAmmo)
        hc1 hinj1 hc1'
      rw [hfl2]
      simp
  · rw [List.countP_append, hgl0]
    have hfl := collisionSide_flip e0 e1 (contacts.map createContactPointFromAmmo)
      hc0 hinj0 hnew
    rw [hfl]
    simp
  · rw [List.countP_append, hgl0]
    have hfl := collisionSide_flip e1 e0 (contacts.map createReverseContactPointFromAmmo)
      hc1 hinj1 hnew
    rw [hfl]
    simp
  · rw [hgl0, hnew]
    simp

theorem processCollision_stores0 {g : Bool} {st : FrameState} {e0 e1 : Entity}
    {contacts : List BtContactPoint} {st' : FrameState} {evs : List Event}
    (h : processCollision g st e0 e1 contacts = .ok (st', evs))
    (hb0 : (hasEvtB e0 "collisionstart" || hasEvtB e0 "collisionend"
      || hasEvtB e0 "contact") = true) :
    pairIn st'.collisions e0 e1 = true ∧ pairIn st'.frameCollisions e0 e1 = true := by
  obtain ⟨hc0, hc1, hsh⟩ := processCollision_ok_shape h
  rcases hsh with ⟨hb0', hb1, hst, hevs⟩ | ⟨hb0', hb1, hst, hevs⟩ |
    ⟨hb0', hb1, hst, hevs⟩ | ⟨hb0', hb1, hst, hevs⟩
  · subst hst
    rw [collisionSide_fst, collisionSide_fst]
    exact ⟨storeCollision_mono_collisions _ _ (storeCollision_self_collisions st e0 e1),
      storeCollision_mono_frame _ _ (storeCollision_self_frame st e0 e1)⟩
  · subst hst
    rw [collisionSide_fst]
    exact ⟨storeCollision_self_collisions st e0 e1, storeCollision_self_frame st e0 e1⟩
  · rw [hb0] at hb0'
    cases hb0'
  · rw [hb0] at hb0'
    cases hb0'

/-! ### Manifold-level lemmas -/

theorem processManifold_ok_hasCollision {g : Bool} {st : FrameState} {m : Manifold}
    {st' : FrameState} {evs : List Event} {a b : Entity}
    (h : processManifold g st m = .ok (st', evs)) (he0 : m.e0 = some a) (he1 : m.e1 = some b)
    (hc : 0 < m.contacts.length) :
    a.hasCollision = true ∧ b.hasCollision = true := by
  rw [processManifold_some he0 he1, if_pos hc] at h
  by_cases htr : (noResp m.flags0 || noResp m.flags1) = true
  · rw [if_pos htr] at h
    obtain ⟨h1, h2, _⟩ := processTrigger_ok_shape h
    exact ⟨h1, h2⟩
  · rw [if_neg htr] at h
    obtain ⟨h1, h2, _⟩ := processCollision_ok_shape h
    exact ⟨h1, h2⟩

theorem processManifold_registered {g : Bool} {st : FrameState} {m : Manifold}
    {st' : FrameState} {evs : List Event} {A B : Entity}
    (h : processManifold g st m = .ok (st', evs))
    (hreg : pairIn st.collisions A B = true) :
    pairIn st'.collisions A B = true ∧
    List.countP (isStartE A B) evs = 0 ∧ List.countP (isEnterE A B) evs = 0 := by
  refine ⟨@processManifold_state_pres g st m st' evs
    (fun s => pairIn s.collisions A B = true) h hreg
    (fun s e o hs _ => storeCollision_mono_collisions e o hs), ?_⟩
  cases hm0 : m.e0 with
  | none =>
    rw [processManifold_none (Or.inl hm0)] at h
    simp at h
    rw [h.2]
    exact ⟨rfl, rfl⟩
  | some e0 =>
    cases hm1 : m.e1 with
    | none =>
      rw [processManifold_none (Or.inr hm1)] at h
      simp at h
      rw [h.2]
      exact ⟨rfl, rfl⟩
    | some e1 =>
      rw [processManifold_some hm0 hm1] at h
      by_cases hlen : 0 < m.contacts.length
      · rw [if_pos hlen] at h
        by_cases htr : (noResp m.flags0 || noResp m.flags1) = true
        · rw [if_pos htr] at h
          exact processTrigger_registered h hreg
        · rw [if_neg htr] at h
          exact processCollision_registered h hreg
      · rw [if_neg hlen] at h
        simp at h
        rw [h.2]
        exact ⟨rfl, rfl⟩

theorem processManifold_frame_mono {g : Bool} {st : FrameState} {m : Manifold}
    {st' : FrameState} {evs : List Event} {A B : Entity}
    (h : processManifold g st m = .ok (st', evs))
    (hf : pairIn st.frameCollisions A B = true) :
    pairIn st'.frameCollisions A B = true :=
  @processManifold_state_pres g st m st' evs (fun s => pairIn s.frameCollisions A B = true)
    h hf (fun s e o hs _ => storeCollision_mono_frame e o hs)

theorem processManifold_nodup {g : Bool} {st : FrameState} {m : Manifold}
    {st' : FrameState} {evs : List Event}
    (h : processManifold g st m = .ok (st', evs))
    (hnd : (regGuids st.collisions).Nodup) :
    (regGuids st'.collisions).Nodup :=
  @processManifold_state_pres g st m st' evs (fun s => (regGuids s.collisions).Nodup)
    h hnd (fun s e o hs _ => storeCollision_nodupGuids e o hs)

theorem processManifold_no_end {g : Bool} {st : FrameState} {m : Manifold}
    {st' : FrameState} {evs : List Event}
    (h : processManifold g st m = .ok (st', evs)) :
    ∀ ev ∈ evs, isEndKindB ev = false := by
  cases hm0 : m.e0 with
  | none =>
    rw [processManifold_none (Or.inl hm0)] at h
    simp at h
    rw [h.2]
    intro ev hev
    simp at hev
  | some e0 =>
    cases hm1 : m.e1 with
    | none =>
      rw [processManifold_none (Or.inr hm1)] at h
      simp at h
      rw [h.2]
      intro ev hev
      simp at hev
    | some e1 =>
      rw [processManifold_some hm0 hm1] at h
      by_cases hlen : 0 < m.contacts.length
      · rw [if_pos hlen] at h
        by_cases htr : (noResp m.flags0 || noResp m.flags1) = true
        · rw [if_pos htr] at h
          exact processTrigger_no_end h
        · rw [if_neg htr] at h
          exact processCollision_no_end h
      · rw [if_neg hlen] at h
        simp at h
        rw [h.2]
        intro ev hev
        simp at hev

theorem storesPair_some {m : Manifold} {e0 e1 : Entity} (h0 : m.e0 = some e0)
    (h1 : m.e1 = some e1) (a b : Entity) :
    storesPair m a b = ((decide (e0.guid = a.guid) && decide (e1 = b)) ||
      (decide (e1.guid = a.guid) && decide (e0 = b))) := by
  unfold storesPair
  rw [h0, h1]

theorem storesPair_false_elim {m : Manifold} {e0 e1 A B : Entity}
    (h0 : m.e0 = some e0) (h1 : m.e1 = some e1) (hav : storesPair m A B = false) :
    ¬(e0.guid = A.guid ∧ e1 = B) ∧ ¬(e1.guid = A.guid ∧ e0 = B) := by
  rw [storesPair_some h0 h1] at hav
  constructor
  · rintro ⟨hg, he⟩
    rw [hg, he] at hav
    simp at hav
  · rintro ⟨hg, he⟩
    rw [hg, he] at hav
    simp at hav

theorem processManifold_flip {g : Bool} {st : FrameState} {m : Manifold}
    {st' : FrameState} {evs : List Event} {A B : Entity}
    (h : processManifold g st m = .ok (st', evs))
    (hinj : ∀ e, (m.e0 = some e ∨ m.e1 = some e) → e.guid = A.guid → e = A)
    (hcoll : storesPair m A B = true → (noResp m.flags0 || noResp m.flags1) = false)
    (hnew : pairIn st.collisions A B = false) :
    List.countP (isStartE A B) evs = (if pairIn st'.collisions A B = true then 1 else 0) := by
  cases hm0 : m.e0 with
  | none =>
    rw [processManifold_none (Or.inl hm0)] at h
    simp at h
    rw [h.2, ← h.1, hnew]
    simp
  | some e0 =>
    cases hm1 : m.e1 with
    | none =>
      rw [processManifold_none (Or.inr hm1)] at h
      simp at h
      rw [h.2, ← h.1, hnew]
      simp
    | some e1 =>
      rw [processManifold_some hm0 hm1] at h
      by_cases hlen : 0 < m.contacts.length
      · rw [if_pos hlen] at h
        by_cases htr : (noResp m.flags0 || noResp m.flags1) = true
        · rw [if_pos htr] at h
          have hsp : storesPair m A B = false := by
            cases hh : storesPair m A B with
            | true =>
              rw [hcoll hh] at htr
              cases htr
            | false => rfl
          obtain ⟨hne0, hne1⟩ := storesPair_false_elim hm0 hm1 hsp
          have hfalse : pairIn st'.collisions A B = false :=
            @processTrigger_state_pres st e0 e1 m.flags0 m.flags1 st' evs
              (fun s => pairIn s.collisions A B = false) h hnew
              (fun s hs => storeCollision_false_collisions hne0 hs)
              (fun s hs => storeCollision_false_collisions hne1 hs)
          rw [hfalse, processTrigger_countStart_zero A B h]
          simp
        · rw [if_neg htr] at h
          exact processCollision_flip h (hinj e0 (Or.inl hm0)) (hinj e1 (Or.inr hm1)) hnew
      · rw [if_neg hlen] at h
        simp at h
        rw [h.2, ← h.1, hnew]
        simp

theorem processManifold_avoid {g : Bool} {st : FrameState} {m : Manifold}
    {st' : FrameState} {evs : List Event} {A B : Entity}
    (h : processManifold g st m = .ok (st', evs)) (hav : storesPair m A B = false) :
    (pairIn st.frameCollisions A B = false → pairIn st'.frameCollisions A B = false) ∧
    ((∃ en, findEntry st.collisions A.guid = some en ∧ en.entity = A ∧
        en.others.count B = 1) →
      ∃ en, findEntry st'.collisions A.guid = some en ∧ en.entity = A ∧
        en.others.count B = 1) := by
  constructor
  · intro hf
    refine @processManifold_state_pres g st m st' evs
      (fun s => pairIn s.frameCollisions A B = false) h hf ?_
    rintro s e o hs (⟨h0, h1⟩ | ⟨h0, h1⟩)
    · exact storeCollision_false_frame (storesPair_false_elim h0 h1 hav).1 hs
    · exact storeCollision_false_frame (storesPair_false_elim h0 h1 hav).2 hs
  · intro hen
    refine @processManifold_state_pres g st m st' evs
      (fun s => ∃ en, findEntry s.collisions A.guid = some en ∧ en.entity = A ∧
        en.others.count B = 1) h hen ?_
    rintro s e o ⟨en, hfind, hent, hcnt⟩ (⟨h0, h1⟩ | ⟨h0, h1⟩)
    · exact storeCollision_entryKeep e o (storesPair_false_elim h0 h1 hav).1 hfind hent hcnt
    · exact storeCollision_entryKeep e o (storesPair_false_elim h0 h1 hav).2 hfind hent hcnt

theorem processManifold_stores_collision {g : Bool} {st : FrameState} {m : Manifold}
    {st' : FrameState} {evs : List Event} {A B : Entity}
    (h : processManifold g st m = .ok (st', evs))
    (he0 : m.e0 = some A) (he1 : m.e1 = some B) (hlen : 0 < m.contacts.length)
    (htr : (noResp m.flags0 || noResp m.flags1) = false)
    (hb0 : hasEvtB A "collisionstart" = true) :
    pairIn st'.collisions A B = true ∧ pairIn st'.frameCollisions A B = true := by
  rw [processManifold_some he0 he1, if_pos hlen,
    if_neg (show ¬((noResp m.flags0 || noResp m.flags1) = true) by rw [htr]; simp)] at h
  exact processCollision_stores0 h (by rw [hb0]; simp)

theorem processManifold_stores_trigger {g : Bool} {st : FrameState} {m : Manifold}
    {st' : FrameState} {evs : List Event} {A B : Entity}
    (h : processManifold g st m = .ok (st', evs))
    (he0 : m.e0 = some A) (he1 : m.e1 = some B) (hlen : 0 < m.contacts.length)
    (htr : (noResp m.flags0 || noResp m.flags1) = true)
    (hb0 : (hasEvtB A "triggerenter" || hasEvtB A "triggerleave") = true) :
    pairIn st'.collisions A B = true ∧ pairIn st'.frameCollisions A B = true := by
  rw [processManifold_some he0 he1, if_pos hlen, if_pos htr] at h
  exact processTrigger_stores0 h hb0

/-! ### Manifold-loop (fold) lemmas -/

theorem processManifolds_ok_cons {g : Bool} {st : FrameState} {m : Manifold}
    {ms : List Manifold} {st' : FrameState} {evs : List Event}
    (h : processManifolds g st (m :: ms) = .ok (st', evs)) :
    ∃ st1 evs1 evs2, processManifold g st m = .ok (st1, evs1) ∧
      processManifolds g st1 ms = .ok (st', evs2) ∧ evs = evs1 ++ evs2 := by
  unfold processManifolds at h
  cases hpm : processManifold g st m with
  | error e =>
    rw [hpm] at h
    simp at h
  | ok p =>
    obtain ⟨st1, evs1⟩ := p
    rw [hpm] at h
    simp only [] at h
    cases hpms : processManifolds g st1 ms with
    | error e =>
      rw [hpms] at h
      simp at h
    | ok q =>
      obtain ⟨st2, evs2⟩ := q
      rw [hpms] at h
      simp at h
      refine ⟨st1, evs1, evs2, rfl, ?_, h.2.symm⟩
      rw [hpms, h.1]

theorem processManifolds_state_pres {g : Bool} {P : FrameState → Prop} :
    ∀ (ms : List Manifold) (st st' : FrameState) (evs : List Event),
      processManifolds g st ms = .ok (st', evs) → P st →
      (∀ m ∈ ms, ∀ s e other, P s →
        ((m.e0 = some e ∧ m.e1 = some other) ∨ (m.e0 = some other ∧ m.e1 = some e)) →
        P (storeCollision s e other).1) →
      P st'
  | [], st, st', evs, h, hP, _ => by
    simp [processManifolds] at h
    rw [← h.1]
    exact hP
  | m :: ms, st, st', evs, h, hP, hstep => by
    obtain ⟨st1, evs1, evs2, h1, h2, _⟩ := processManifolds_ok_cons h
    exact processManifolds_state_pres ms st1 st' evs2 h2
      (processManifold_state_pres h1 hP
        (fun s e o hs hm => hstep m (List.mem_cons_self m ms) s e o hs hm))
      (fun m' hm' => hstep m' (List.mem_cons_of_mem m hm'))

theorem processManifolds_registered {g : Bool} {A B : Entity} :
    ∀ (ms : List Manifold) (st st' : FrameState) (evs : List Event),
      processManifolds g st ms = .ok (st', evs) →
      pairIn st.collisions A B = true →
      pairIn st'.collisions A B = true ∧
      List.countP (isStartE A B) evs = 0 ∧ List.countP (isEnterE A B) evs = 0
  | [], st, st', evs, h, hreg => by
    simp [processManifolds] at h
    rw [← h.1, h.2]
    exact ⟨hreg, rfl, rfl⟩
  | m :: ms, st, st', evs, h, hreg => by
    obtain ⟨st1, evs1, evs2, h1, h2, hevs⟩ := processManifolds_ok_cons h
    obtain ⟨hreg1, hs1, he1⟩ := processManifold_registered h1 hreg
    obtain ⟨hreg2, hs2, he2⟩ := processManifolds_registered ms st1 st' evs2 h2 hreg1
    subst hevs
    exact ⟨hreg2, by rw [List.countP_append, hs1, hs2], by rw [List.countP_append, he1, he2]⟩

theorem processManifolds_no_end {g : Bool} :
    ∀ (ms : List Manifold) (st st' : FrameState) (evs : List Event),
      processManifolds g st ms = .ok (st', evs) →
      ∀ ev ∈ evs, isEndKindB ev = false
  | [], st, st', evs, h => by
    simp [processManifolds] at h
    rw [h.2]
    intro ev hev
    simp at hev
  | m :: ms, st, st', evs, h => by
    obtain ⟨st1, evs1, evs2, h1, h2, hevs⟩ := processManifolds_ok_cons h
    subst hevs
    intro ev hev
    rw [List.mem_append] at hev
    rcases hev with hev | hev
    · exact processManifold_no_end h1 ev hev
    · exact processManifolds_no_end ms st1 st' evs2 h2 ev hev

theorem processManifolds_flip {g : Bool} {A B : Entity} :
    ∀ (ms : List Manifold) (st st' : FrameState) (evs : List Event),
      processManifolds g st ms = .ok (st', evs) →
      (∀ m ∈ ms, ∀ e, (m.e0 = some e ∨ m.e1 = some e) → e.guid = A.guid → e = A) →
      (∀ m ∈ ms, storesPair m A B = true → (noResp m.flags0 || noResp m.flags1) = false) →
      pairIn st.collisions A B = false →
      List.countP (isStartE A B) evs = (if pairIn st'.collisions A B = true then 1 else 0)
  | [], st, st', evs, h, _, _, hnew => by
    simp [processManifolds] at h
    rw [h.2, ← h.1, hnew]
    simp
  | m :: ms, st, st', evs, h, hinj, hcoll, hnew => by
    obtain ⟨st1, evs1, evs2, h1, h2, hevs⟩ := processManifolds_ok_cons h
    subst hevs
    rw [List.countP_append]
    have hm1 := processManifold_flip h1 (hinj m (List.mem_cons_self m ms))
      (hcoll m (List.mem_cons_self m ms)) hnew
    cases hmid : pairIn st1.collisions A B with
    | true =>
      rw [hmid] at hm1
      obtain ⟨hregF, hs2, _⟩ := processManifolds_registered ms st1 st' evs2 h2 hmid
      rw [hm1, hs2, hregF]
      simp
    | false =>
      rw [hmid] at hm1
      rw [hm1]
      have hrest := processManifolds_flip ms st1 st' evs2 h2
        (fun m' hm' => hinj m' (List.mem_cons_of_mem m hm'))
        (fun m' hm' => hcoll m' (List.mem_cons_of_mem m hm')) hmid
      rw [hrest]
      simp

theorem processManifolds_hasCollision {g : Bool} :
    ∀ (ms : List Manifold) (st st' : FrameState) (evs : List Event),
      processManifolds g st ms = .ok (st', evs) →
      ∀ m ∈ ms, ∀ a b, m.e0 = some a → m.e1 = some b → 0 < m.contacts.length →
        a.hasCollision = true ∧ b.hasCollision = true
  | [], st, st', evs, _ => by
    intro m hm
    simp at hm
  | m :: ms, st, st', evs, h => by
    obtain ⟨st1, evs1, evs2, h1, h2, _⟩ := processManifolds_ok_cons h
    intro m' hm' a b he0 he1 hc
    rcases List.mem_cons.mp hm' with heq | hm'
    · subst heq
      exact processManifold_ok_hasCollision h1 he0 he1 hc
    · exact processManifolds_hasCollision ms st1 st' evs2 h2 m' hm' a b he0 he1 hc

theorem processManifolds_stores {g : Bool} {A B : Entity} {m1 : Manifold}
    (hstore : ∀ st1 st2 evs1, processManifold g st1 m1 = .ok (st2, evs1) →
      pairIn st2.collisions A B = true ∧ pairIn st2.frameCollisions A B = true) :
    ∀ (ms : List Manifold) (st st' : FrameState) (evs : List Event),
      processManifolds g st ms = .ok (st', evs) → m1 ∈ ms →
      pairIn st'.collisions A B = true ∧ pairIn st'.frameCollisions A B = true
  | [], st, st', evs, _, hm => by simp at hm
  | m :: ms, st, st', evs, h, hm => by
    obtain ⟨st1, evs1, evs2, h1, h2, _⟩ := processManifolds_ok_cons h
    rcases List.mem_cons.mp hm with heq | hm'
    · subst heq
      obtain ⟨hc, hf⟩ := hstore st st1 evs1 h1
      constructor
      · exact @processManifolds_state_pres g (fun s => pairIn s.collisions A B = true)
          ms st1 st' evs2 h2 hc (fun m' _ s e o hs _ => storeCollision_mono_collisions e o hs)
      · exact @processManifolds_state_pres g (fun s => pairIn s.frameCollisions A B = true)
          ms st1 st' evs2 h2 hf (fun m' _ s e o hs _ => storeCollision_mono_frame e o hs)
    · exact processManifolds_stores hstore ms st1 st' evs2 h2 hm'

/-! ### Reconciliation (`_cleanOldCollisions`) lemmas -/

theorem staysB_eq_pairIn (frame : Registry) (a b : Entity) :
    staysB frame a.guid b = pairIn frame a b := rfl

theorem cleanOthers_kept (frame : Registry) (ent : Entity) :
    ∀ others : List Entity,
      (cleanOthers frame ent others).1 =
        others.filter (fun o => staysB frame ent.guid o)
  | [] => rfl
  | o :: rest => by
    rw [cleanOthers]
    by_cases hs : staysB frame ent.guid o = true
    · simp only [hs, if_true, List.filter_cons, cleanOthers_kept frame ent rest]
    · rw [Bool.not_eq_true] at hs
      simp only [hs, Bool.false_eq_true, if_false, List.filter_cons,
        cleanOthers_kept frame ent rest]

theorem cleanOthers_end_kind (frame : Registry) (ent : Entity) :
    ∀ others : List Entity, ∀ ev ∈ (cleanOthers frame ent others).2, isEndKindB ev = true
  | [] => by
    intro ev hev
    simp [cleanOthers] at hev
  | o :: rest => by
    intro ev hev
    rw [cleanOthers] at hev
    by_cases hs : staysB frame ent.guid o = true
    · simp only [hs, if_true] at hev
      exact cleanOthers_end_kind frame ent rest ev hev
    · rw [Bool.not_eq_true] at hs
      simp only [hs, Bool.false_eq_true, if_false, List.mem_append] at hev
      rcases hev with hev | hev
      · exact cleanOthers_end_kind frame ent rest ev hev
      · revert hev
        rw [endEvents]
        split
        · split
          · intro hev
            rw [List.mem_singleton] at hev
            subst hev
            rfl
          · split
            · intro hev
              rw [List.mem_singleton] at hev
              subst hev
              rfl
            · intro hev
              simp at hev
        · intro hev
          simp at hev

theorem isEndKindB_not_start (A B : Entity) (ev : Event) (h : isEndKindB ev = true) :
    isStartE A B ev = false := by
  cases ev <;> simp_all [isEndKindB, isStartE]

theorem isEndKindB_not_enter (A B : Entity) (ev : Event) (h : isEndKindB ev = true) :
    isEnterE A B ev = false := by
  cases ev <;> simp_all [isEndKindB, isEnterE]

theorem cleanOthers_countP_mul {frame : Registry} {A B : Entity} {p : Event → Bool}
    (hstay : staysB frame A.guid B = false)
    (hother : ∀ o, ¬o = B → List.countP p (endEvents A o) = 0) :
    ∀ others : List Entity,
      List.countP p (cleanOthers frame A others).2 =
        others.count B * List.countP p (endEvents A B)
  | [] => by simp [cleanOthers]
  | o :: rest => by
    rw [cleanOthers, List.count_cons]
    by_cases hoB : o = B
    · subst hoB
      simp only [hstay, Bool.false_eq_true, if_false, List.countP_append,
        cleanOthers_countP_mul hstay hother rest, beq_self_eq_true, if_true]
      rw [Nat.succ_mul]
    · have hbeq : (o == B) = false := by
        simp [hoB]
      simp only [hbeq, Bool.false_eq_true, if_false, Nat.add_zero]
      by_cases hs : staysB frame A.guid o = true
      · simp only [hs, if_true]
        exact cleanOthers_countP_mul hstay hother rest
      · rw [Bool.not_eq_true] at hs
        simp only [hs, Bool.false_eq_true, if_false, List.countP_append,
          cleanOthers_countP_mul hstay hother rest, hother o hoB, Nat.add_zero]

theorem cleanOthers_countP_zero {frame : Registry} {ent : Entity} {p : Event → Bool}
    (hp : ∀ o, List.countP p (endEvents ent o) = 0) :
    ∀ others : List Entity, List.countP p (cleanOthers frame ent others).2 = 0
  | [] => by simp [cleanOthers]
  | o :: rest => by
    rw [cleanOthers]
    by_cases hs : staysB frame ent.guid o = true
    · simp only [hs, if_true]
      exact cleanOthers_countP_zero hp rest
    · rw [Bool.not_eq_true] at hs
      simp only [hs, Bool.false_eq_true, if_false, List.countP_append,
        cleanOthers_countP_zero hp rest, hp o, Nat.add_zero]

theorem cleanOldCollisions_no_empty (frame : Registry) :
    ∀ cols : Registry, ∀ en ∈ (cleanOldCollisions frame cols).1, ¬en.others = []
  | [] => by
    intro en hen
    simp [cleanOldCollisions] at hen
  | en0 :: rest => by
    intro en hen
    rw [cleanOldCollisions] at hen
    by_cases he : (cleanOthers frame en0.entity en0.others).1.isEmpty = true
    · simp only [he, if_true] at hen
      exact cleanOldCollisions_no_empty frame rest en hen
    · rw [Bool.not_eq_true] at he
      simp only [he, Bool.false_eq_true, if_false, List.mem_cons] at hen
      rcases hen with heq | hen
      · subst heq
        intro hc
        rw [List.isEmpty_eq_false] at he
        exact he hc
      · exact cleanOldCollisions_no_empty frame rest en hen

theorem pairIn_cons_ne {en0 : Entry} {rest : Registry} {a b : Entity}
    (hg : ¬en0.entity.guid = a.guid) : pairIn (en0 :: rest) a b = pairIn rest a b := by
  unfold pairIn
  rw [findEntry, if_neg hg]

theorem pairIn_cons_self {en0 : Entry} {rest : Registry} {a b : Entity}
    (hg : en0.entity.guid = a.guid) :
    pairIn (en0 :: rest) a b = decide (b ∈ en0.others) := by
  unfold pairIn
  rw [findEntry, if_pos hg]

theorem pairIn_nil (a b : Entity) : pairIn [] a b = false := rfl

theorem pairIn_cons_entry {ent : Entity} {others : List Entity} {rest : Registry}
    {a b : Entity} (hg : ent.guid = a.guid) :
    pairIn ({ entity := ent, others := others } :: rest) a b = decide (b ∈ others) := by
  unfold pairIn
  rw [findEntry, if_pos hg]

theorem pairIn_cons_entry_ne {ent : Entity} {others : List Entity} {rest : Registry}
    {a b : Entity} (hg : ¬ent.guid = a.guid) :
    pairIn ({ entity := ent, others := others } :: rest) a b = pairIn rest a b := by
  unfold pairIn
  rw [findEntry, if_neg hg]

theorem cleanOldCollisions_findEntry_none {frame : Registry} {g : Nat} :
    ∀ cols : Registry, (∀ en ∈ cols, en.entity.guid ≠ g) →
      findEntry (cleanOldCollisions frame cols).1 g = none
  | [] => by
    intro _
    rfl
  | en0 :: rest => by
    intro h
    rw [cleanOldCollisions]
    by_cases he : (cleanOthers frame en0.entity en0.others).1.isEmpty = true
    · simp only [he, if_true]
      exact cleanOldCollisions_findEntry_none rest
        (fun en hen => h en (List.mem_cons_of_mem _ hen))
    · rw [Bool.not_eq_true] at he
      simp only [he, Bool.false_eq_true, if_false]
      rw [findEntry, if_neg (h en0 (List.mem_cons_self _ _))]
      exact cleanOldCollisions_findEntry_none rest
        (fun en hen => h en (List.mem_cons_of_mem _ hen))

theorem cleanOldCollisions_keep {frame : Registry} {A B : Entity}
    (hfr : pairIn frame A B = true) :
    ∀ cols : Registry, pairIn cols A B = true →
      pairIn (cleanOldCollisions frame cols).1 A B = true
  | [] => by
    intro h
    rw [pairIn_nil] at h
    cases h
  | en0 :: rest => by
    intro h
    rw [cleanOldCollisions]
    by_cases hg : en0.entity.guid = A.guid
    · rw [pairIn_cons_self hg] at h
      rw [decide_eq_true_iff] at h
      have hkept : B ∈ (cleanOthers frame en0.entity en0.others).1 := by
        rw [cleanOthers_kept, List.mem_filter]
        refine ⟨h, ?_⟩
        rw [hg, staysB_eq_pairIn]
        exact hfr
      have hne : (cleanOthers frame en0.entity en0.others).1.isEmpty = false := by
        rw [List.isEmpty_eq_false]
        exact List.ne_nil_of_mem hkept
      simp only [hne, Bool.false_eq_true, if_false]
      rw [pairIn_cons_entry hg]
      simpa using hkept
    · rw [pairIn_cons_ne hg] at h
      by_cases he : (cleanOthers frame en0.entity en0.others).1.isEmpty = true
      · simp only [he, if_true]
        exact cleanOldCollisions_keep hfr rest h
      · rw [Bool.not_eq_true] at he
        simp only [he, Bool.false_eq_true, if_false]
        rw [pairIn_cons_entry_ne hg]
        exact cleanOldCollisions_keep hfr rest h

theorem endEvents_countP_entity_ne {A B ent : Entity} (h : ¬ent = A) (o : Entity) :
    List.countP (isEndE A B) (endEvents ent o) = 0 ∧
    List.countP (isLeaveE A B) (endEvents ent o) = 0 := by
  rw [endEvents]
  split
  · split
    · simp [isEndE, isLeaveE, List.countP_cons, h]
    · split
      · simp [isEndE, isLeaveE, List.countP_cons, h]
      · simp
  · simp

theorem endEvents_countP_other_ne {A B o : Entity} (h : ¬o = B) :
    List.countP (isEndE A B) (endEvents A o) = 0 ∧
    List.countP (isLeaveE A B) (endEvents A o) = 0 := by
  rw [endEvents]
  split
  · split
    · simp [isEndE, isLeaveE, List.countP_cons, h]
    · split
      · simp [isEndE, isLeaveE, List.countP_cons, h]
      · simp
  · simp

theorem endEvents_countP_end (A B : Entity) :
    List.countP (isEndE A B) (endEvents A B) =
      if A.hasCollision && B.hasCollision && A.hasRigidbody && B.hasRigidbody
      then 1 else 0 := by
  cases h1 : A.hasCollision <;> cases h2 : B.hasCollision <;> cases h3 : A.hasRigidbody <;>
    cases h4 : B.hasRigidbody <;> cases h5 : A.hasTrigger <;>
      simp [endEvents, isEndE, isLeaveE, List.countP_cons, h1, h2, h3, h4, h5]

theorem endEvents_countP_leave (A B : Entity) :
    List.countP (isLeaveE A B) (endEvents A B) =
      if A.hasCollision && B.hasCollision && !(A.hasRigidbody && B.hasRigidbody)
        && A.hasTrigger
      then 1 else 0 := by
  cases h1 : A.hasCollision <;> cases h2 : B.hasCollision <;> cases h3 : A.hasRigidbody <;>
    cases h4 : B.hasRigidbody <;> cases h5 : A.hasTrigger <;>
      simp [endEvents, isEndE, isLeaveE, List.countP_cons, h1, h2, h3, h4, h5]

theorem cleanOldCollisions_countP_zero {frame : Registry} {p : Event → Bool} :
    ∀ cols : Registry,
      (∀ en ∈ cols, ∀ o, List.countP p (endEvents en.entity o) = 0) →
      List.countP p (cleanOldCollisions frame cols).2 = 0
  | [] => by
    intro _
    rfl
  | en0 :: rest => by
    intro h
    rw [cleanOldCollisions]
    simp only [List.countP_append]
    rw [cleanOthers_countP_zero (h en0 (List.mem_cons_self _ _)),
      cleanOldCollisions_countP_zero rest
        (fun en hen => h en (List.mem_cons_of_mem _ hen))]

theorem cleanOldCollisions_spec {frame : Registry} {A B : Entity}
    (hstay : staysB frame A.guid B = false) :
    ∀ cols : Registry, (regGuids cols).Nodup →
      ∀ en, findEntry cols A.guid = some en → en.entity = A → en.others.count B = 1 →
      List.countP (isEndE A B) (cleanOldCollisions frame cols).2 =
        List.countP (isEndE A B) (endEvents A B) ∧
      List.countP (isLeaveE A B) (cleanOldCollisions frame cols).2 =
        List.countP (isLeaveE A B) (endEvents A B) ∧
      pairIn (cleanOldCollisions frame cols).1 A B = false
  | [] => by
    intro _ en hen
    simp [findEntry] at hen
  | en0 :: rest => by
    intro hnd en hen hent hcnt
    have hndrest : (regGuids rest).Nodup := by
      rw [regGuids, List.map_cons, List.nodup_cons] at hnd
      exact hnd.2
    by_cases hg : en0.entity.guid = A.guid
    · rw [findEntry, if_pos hg] at hen
      cases hen
      have hrestne : ∀ en' ∈ rest, en'.entity.guid ≠ A.guid := by
        intro en' hen' hgg
        rw [regGuids, List.map_cons, List.nodup_cons] at hnd
        exact hnd.1 (List.mem_map.mpr ⟨en', hen', by rw [hgg, hg]⟩)
      have hzero_rest_end : List.countP (isEndE A B) (cleanOldCollisions frame rest).2 = 0 :=
        cleanOldCollisions_countP_zero rest (fun en' hen' o =>
          (endEvents_countP_entity_ne
            (fun hh => hrestne en' hen' (by rw [hh])) o).1)
      have hzero_rest_leave :
          List.countP (isLeaveE A B) (cleanOldCollisions frame rest).2 = 0 :=
        cleanOldCollisions_countP_zero rest (fun en' hen' o =>
          (endEvents_countP_entity_ne
            (fun hh => hrestne en' hen' (by rw [hh])) o).2)
      have hhead_end :
          List.countP (isEndE A B) (cleanOthers frame en0.entity en0.others).2 =
            List.countP (isEndE A B) (endEvents A B) := by
        rw [hent, cleanOthers_countP_mul hstay
          (fun o ho => (endEvents_countP_other_ne ho).1) en0.others, hcnt, Nat.one_mul]
      have hhead_leave :
          List.countP (isLeaveE A B) (cleanOthers frame en0.entity en0.others).2 =
            List.countP (isLeaveE A B) (endEvents A B) := by
        rw [hent, cleanOthers_countP_mul hstay
          (fun o ho => (endEvents_countP_other_ne ho).2) en0.others, hcnt, Nat.one_mul]
      refine ⟨?_, ?_, ?_⟩
      · rw [cleanOldCollisions]
        simp only [List.countP_append]
        rw [hhead_end, hzero_rest_end, Nat.add_zero]
      · rw [cleanOldCollisions]
        simp only [List.countP_append]
        rw [hhead_leave, hzero_rest_leave, Nat.add_zero]
      · rw [cleanOldCollisions]
        by_cases hke : (cleanOthers frame en0.entity en0.others).1.isEmpty = true
        · simp only [hke, if_true]
          unfold pairIn
          rw [cleanOldCollisions_findEntry_none rest hrestne]
        · rw [Bool.not_eq_true] at hke
          simp only [hke, Bool.false_eq_true, if_false]
          rw [pairIn_cons_entry hg]
          have hnotin : B ∉ (cleanOthers frame en0.entity en0.others).1 := by
            rw [cleanOthers_kept, List.mem_filter]
            rintro ⟨_, hstay'⟩
            rw [hent, hstay] at hstay'
            cases hstay'
          simp [hnotin]
    · rw [findEntry, if_neg hg] at hen
      have hentne : ¬en0.entity = A := fun hh => hg (by rw [hh])
      obtain ⟨hrest_end, hrest_leave, hrest_pair⟩ :=
        cleanOldCollisions_spec hstay rest hndrest en hen hent hcnt
      have hhead_end :
          List.countP (isEndE A B) (cleanOthers frame en0.entity en0.others).2 = 0 :=
        cleanOthers_countP_zero (fun o => (endEvents_countP_entity_ne hentne o).1) en0.others
      have hhead_leave :
          List.countP (isLeaveE A B) (cleanOthers frame en0.entity en0.others).2 = 0 :=
        cleanOthers_countP_zero (fun o => (endEvents_countP_entity_ne hentne o).2) en0.others
      refine ⟨?_, ?_, ?_⟩
      · rw [cleanOldCollisions]
        simp only [List.countP_append]
        rw [hhead_end, hrest_end, Nat.zero_add]
      · rw [cleanOldCollisions]
        simp only [List.countP_append]
        rw [hhead_leave, hrest_leave, Nat.zero_add]
      · rw [cleanOldCollisions]
        by_cases hke : (cleanOthers frame en0.entity en0.others).1.isEmpty = true
        · simp only [hke, if_true]
          exact hrest_pair
        · rw [Bool.not_eq_true] at hke
          simp only [hke, Bool.false_eq_true, if_false]
          rw [pairIn_cons_entry_ne hg]
          exact hrest_pair

theorem cleanOldCollisions_end_kind (frame : Registry) :
    ∀ cols : Registry, ∀ ev ∈ (cleanOldCollisions frame cols).2, isEndKindB ev = true
  | [] => by
    intro ev hev
    simp [cleanOldCollisions] at hev
  | en0 :: rest => by
    intro ev hev
    rw [cleanOldCollisions] at hev
    rw [List.mem_append] at hev
    rcases hev with hev | hev
    · exact cleanOthers_end_kind frame en0.entity en0.others ev hev
    · exact cleanOldCollisions_end_kind frame rest ev hev

theorem cleanOldCollisions_countStart_zero {frame : Registry} {A B : Entity}
    (cols : Registry) :
    List.countP (isStartE A B) (cleanOldCollisions frame cols).2 = 0 ∧
    List.countP (isEnterE A B) (cleanOldCollisions frame cols).2 = 0 := by
  constructor
  · rw [List.countP_eq_zero]
    intro ev hev
    rw [Bool.not_eq_true]
    exact isEndKindB_not_start A B ev (cleanOldCollisions_end_kind frame cols ev hev)
  · rw [List.countP_eq_zero]
    intro ev hev
    rw [Bool.not_eq_true]
    exact isEndKindB_not_enter A B ev (cleanOldCollisions_end_kind frame cols ev hev)

/-! ### Frame-update assembly lemmas -/

theorem onUpdate_ok {g : Bool} {cols cols' : Registry} {ms : List Manifold}
    {evs : List Event} (h : onUpdate g cols ms = .ok (cols', evs)) :
    ∃ stF evsM, processManifolds g { collisions := cols, frameCollisions := [] } ms
        = .ok (stF, evsM) ∧
      cols' = (cleanOldCollisions stF.frameCollisions stF.collisions).1 ∧
      evs = evsM ++ (cleanOldCollisions stF.frameCollisions stF.collisions).2 := by
  unfold onUpdate at h
  cases hpm : processManifolds g { collisions := cols, frameCollisions := [] } ms with
  | error e =>
    rw [hpm] at h
    simp at h
  | ok p =>
    obtain ⟨stF, evsM⟩ := p
    rw [hpm] at h
    simp at h
    exact ⟨stF, evsM, rfl, h.1.symm, h.2.symm⟩

theorem isEndE_imp_kind {A B : Entity} (ev : Event) (h : isEndE A B ev = true) :
    isEndKindB ev = true := by
  cases ev <;> simp_all [isEndE, isEndKindB]

theorem isLeaveE_imp_kind {A B : Entity} (ev : Event) (h : isLeaveE A B ev = true) :
    isEndKindB ev = true := by
  cases ev <;> simp_all [isLeaveE, isEndKindB]

theorem processManifold_no_contacts {g : Bool} {st : FrameState} {m : Manifold}
    (h : ¬0 < m.contacts.length) : processManifold g st m = .ok (st, []) := by
  cases hm0 : m.e0 with
  | none => exact processManifold_none (Or.inl hm0)
  | some e0 =>
    cases hm1 : m.e1 with
    | none => exact processManifold_none (Or.inr hm1)
    | some e1 => rw [processManifold_some hm0 hm1, if_neg h]

theorem processManifolds_cons (g : Bool) (st : FrameState) (m : Manifold)
    (ms : List Manifold) :
    processManifolds g st (m :: ms) =
      match processManifold g st m with
      | .error e => .error e
      | .ok (st1, evs1) =>
        match processManifolds g st1 ms with
        | .error e => .error e
        | .ok (st2, evs2) => .ok (st2, evs1 ++ evs2) := rfl

theorem processManifolds_cons_zero {g : Bool} {st : FrameState} {m : Manifold}
    {ms : List Manifold} (h : processManifold g st m = .ok (st, [])) :
    processManifolds g st (m :: ms) = processManifolds g st ms := by
  rw [processManifolds_cons, h]
  cases hpms : processManifolds g st ms with
  | error e =>
    show (match processManifolds g st ms with
      | .error e => (Except.error e : Except Unit (FrameState × List Event))
      | .ok (st2, evs2) => Except.ok (st2, ([] : List Event) ++ evs2)) = Except.error e
    rw [hpms]
  | ok q =>
    obtain ⟨st2, evs2⟩ := q
    show (match processManifolds g st ms with
      | .error e => (Except.error e : Except Unit (FrameState × List Event))
      | .ok (st2, evs2) => Except.ok (st2, ([] : List Event) ++ evs2))
        = Except.ok (st2, evs2)
    rw [hpms]
    simp

theorem processManifolds_cons_congr {g : Bool} {st : FrameState} {m : Manifold}
    {ms ms' : List Manifold}
    (h : ∀ st1, processManifolds g st1 ms = processManifolds g st1 ms') :
    processManifolds g st (m :: ms) = processManifolds g st (m :: ms') := by
  rw [processManifolds_cons, processManifolds_cons]
  simp only [h]

theorem processManifolds_filter (g : Bool) :
    ∀ (ms : List Manifold) (st : FrameState),
      processManifolds g st ms =
        processManifolds g st (ms.filter (fun m => decide (0 < m.contacts.length)))
  | [], _ => rfl
  | m :: ms, st => by
    rw [List.filter_cons]
    by_cases hc : 0 < m.contacts.length
    · have hd : decide (0 < m.contacts.length) = true := decide_eq_true hc
      rw [hd, if_pos rfl]
      exact processManifolds_cons_congr (fun st1 => processManifolds_filter g ms st1)
    · have hd : decide (0 < m.contacts.length) = false := decide_eq_false hc
      rw [hd]
      simp only [Bool.false_eq_true, if_false]
      rw [processManifolds_cons_zero (processManifold_no_contacts hc)]
      exact processManifolds_filter g ms st

theorem endEvents_leave_mem (E O o : Entity) :
    Event.triggerleave E O ∈ endEvents E o ↔
      (o = O ∧ E.hasCollision = true ∧ O.hasCollision = true ∧
        ¬(E.hasRigidbody = true ∧ O.hasRigidbody = true) ∧ E.hasTrigger = true) := by
  rw [endEvents]
  by_cases hhc : (E.hasCollision && o.hasCollision) = true
  · rw [if_pos hhc]
    rw [Bool.and_eq_true] at hhc
    by_cases hrb : (E.hasRigidbody && o.hasRigidbody) = true
    · rw [if_pos hrb]
      rw [Bool.and_eq_true] at hrb
      simp only [List.mem_singleton]
      constructor
      · intro hh
        simp at hh
      · rintro ⟨ho, hEc, hOc, hnrb, htg⟩
        cases ho
        exact absurd ⟨hrb.1, hrb.2⟩ hnrb
    · rw [if_neg hrb]
      by_cases htg : E.hasTrigger = true
      · rw [if_pos htg]
        simp only [List.mem_singleton]
        constructor
        · intro hh
          injection hh with h1 h2
          cases h2
          refine ⟨rfl, hhc.1, hhc.2, ?_, htg⟩
          intro hboth
          exact hrb (by rw [Bool.and_eq_true]; exact hboth)
        · rintro ⟨ho, _, _, _, _⟩
          cases ho
          rfl
      · rw [if_neg htg]
        constructor
        · intro hh
          simp at hh
        · rintro ⟨_, _, _, _, htg'⟩
          exact absurd htg' htg
  · rw [if_neg hhc]
    constructor
    · intro hh
      simp at hh
    · rintro ⟨ho, hEc, hOc, _, _⟩
      cases ho
      exact absurd (by rw [Bool.and_eq_true]; exact ⟨hEc, hOc⟩) hhc

theorem cleanOthers_leave_mem (frame : Registry) (E O : Entity) :
    ∀ others : List Entity,
      Event.triggerleave E O ∈ (cleanOthers frame E others).2 ↔
        (O ∈ others ∧ staysB frame E.guid O = false ∧ E.hasCollision = true ∧
          O.hasCollision = true ∧ ¬(E.hasRigidbody = true ∧ O.hasRigidbody = true) ∧
          E.hasTrigger = true)
  | [] => by simp [cleanOthers]
  | o :: rest => by
    rw [cleanOthers]
    by_cases hs : staysB frame E.guid o = true
    · simp only [hs, if_true]
      rw [cleanOthers_leave_mem frame E O rest]
      constructor
      · rintro ⟨hmem, hrest⟩
        exact ⟨List.mem_cons_of_mem _ hmem, hrest⟩
      · rintro ⟨hmem, hstay, hrest⟩
        rcases List.mem_cons.mp hmem with heq | hmem
        · rw [heq] at hstay
          rw [hstay] at hs
          cases hs
        · exact ⟨hmem, hstay, hrest⟩
    · rw [Bool.not_eq_true] at hs
      simp only [hs, Bool.false_eq_true, if_false, List.mem_append]
      rw [cleanOthers_leave_mem frame E O rest, endEvents_leave_mem]
      constructor
      · rintro (⟨hmem, hrest⟩ | ⟨ho, hrest⟩)
        · exact ⟨List.mem_cons_of_mem _ hmem, hrest⟩
        · cases ho
          exact ⟨List.mem_cons_self _ _, hs, hrest⟩
      · rintro ⟨hmem, hstay, hrest⟩
        rcases List.mem_cons.mp hmem with heq | hmem
        · exact Or.inr ⟨heq.symm, hrest⟩
        · exact Or.inl ⟨hmem, hstay, hrest⟩

/-! ### Claim C10 -/

/-- C10: a manifold with zero contact points is ignored entirely by the frame
update — filtering all zero-contact manifolds out of a step's manifold list
leaves `onUpdate`'s result (the updated durable registry and the full ordered
event list, including the reconciliation's `collisionend`/`triggerleave`
events) unchanged; hence a durable pairing whose manifold persists with zero
contacts ends exactly as if the manifold were absent. -/
theorem zero_contact_manifolds_ignored (g : Bool) (cols : Registry)
    (ms : List Manifold) :
    onUpdate g cols ms =
      onUpdate g cols (ms.filter (fun m => decide (0 < m.contacts.length))) := by
  unfold onUpdate
  rw [processManifolds_filter g ms]

/-! ### Claim C8 -/

/-- C8: the manifold loop queries `hasEvent` on each resolved entity's
collision sub-component unconditionally, in the trigger branch and in the
collision branch alike, so `onUpdate` completes without a TypeError only if
every entity of every contact-bearing manifold has a collision sub-component
(even though the framework treats that sub-component as optional). -/
theorem onUpdate_requires_collision_component {g : Bool} {cols : Registry}
    {ms : List Manifold} {res : Registry × List Event}
    (h : onUpdate g cols ms = .ok res) :
    ∀ m ∈ ms, ∀ a b, m.e0 = some a → m.e1 = some b → 0 < m.contacts.length →
      a.hasCollision = true ∧ b.hasCollision = true := by
  obtain ⟨cols', evs⟩ := res
  obtain ⟨stF, evsM, hpm, _, _⟩ := onUpdate_ok h
  exact processManifolds_hasCollision ms _ stF evsM hpm

theorem onUpdate_requires_collision_component_witness :
    exEntityA.hasCollision = true ∧ exEntityB.hasCollision = true := by
  have h : onUpdate false [] [exManifold] = .ok
      ([{ entity := exEntityA, others := [exEntityB] },
        { entity := exEntityB, others := [exEntityA] }],
       [Event.contactEnt exEntityA exEntityB [createContactPointFromAmmo exCP],
        Event.collisionstart exEntityA exEntityB [createContactPointFromAmmo exCP],
        Event.contactEnt exEntityB exEntityA [createReverseContactPointFromAmmo exCP],
        Event.collisionstart exEntityB exEntityA
          [createReverseContactPointFromAmmo exCP]]) := rfl
  exact onUpdate_requires_collision_component h exManifold (List.mem_singleton.mpr rfl)
    exEntityA exEntityB rfl rfl (by decide)

/-! ### Claim C1 -/

/-- C1: for a pairing (A, B) not yet in the durable registry, a step whose
manifolds include a contact-bearing, non-trigger manifold for (A, B) with A
listening for `collisionstart` — provided no manifold of the step that could
register the pair is trigger-flagged, and no other entity of the step aliases
A's guid — fires `collisionstart` on A about B exactly once and records the
pairing in the durable registry; and from EVERY state in which the pairing is
recorded in the durable registry, a step fires no `collisionstart` on A about
B at all, whatever its manifolds — so once registered at step 1 the event
cannot fire again on any later step until the pairing has ended and left the
durable registry (ending is exactly removal from that registry). -/
theorem collisionstart_exactly_once {g : Bool} {cols cols1 : Registry}
    {ms1 : List Manifold} {evs1 : List Event} {m1 : Manifold} {A B : Entity}
    (hnew : pairIn cols A B = false)
    (hinj : ∀ m ∈ ms1, ∀ e : Entity, (m.e0 = some e ∨ m.e1 = some e) →
      e.guid = A.guid → e = A)
    (hcoll : ∀ m ∈ ms1, storesPair m A B = true →
      (noResp m.flags0 || noResp m.flags1) = false)
    (hm1 : m1 ∈ ms1) (he0 : m1.e0 = some A) (he1 : m1.e1 = some B)
    (hc : 0 < m1.contacts.length)
    (hflags : (noResp m1.flags0 || noResp m1.flags1) = false)
    (hlisten : hasEvtB A "collisionstart" = true)
    (h1 : onUpdate g cols ms1 = .ok (cols1, evs1)) :
    List.countP (isStartE A B) evs1 = 1 ∧ pairIn cols1 A B = true ∧
    (∀ g2 cols' ms2 cols2 evs2, pairIn cols' A B = true →
      onUpdate g2 cols' ms2 = .ok (cols2, evs2) →
      List.countP (isStartE A B) evs2 = 0) := by
  obtain ⟨stF, evsM, hpm1, hcols1, hevs1⟩ := onUpdate_ok h1
  have hstore : ∀ st1 st2 evsX, processManifold g st1 m1 = .ok (st2, evsX) →
      pairIn st2.collisions A B = true ∧ pairIn st2.frameCollisions A B = true :=
    fun st1 st2 evsX hh =>
      processManifold_stores_collision hh he0 he1 hc hflags hlisten
  obtain ⟨hregCol, hregFrame⟩ :=
    processManifolds_stores hstore ms1 _ stF evsM hpm1 hm1
  have hflip := processManifolds_flip ms1 _ stF evsM hpm1 hinj hcoll hnew
  have hreg1 : pairIn cols1 A B = true := by
    rw [hcols1]
    exact cleanOldCollisions_keep hregFrame stF.collisions hregCol
  refine ⟨?_, hreg1, ?_⟩
  · rw [hevs1, List.countP_append, hflip, hregCol,
      (cleanOldCollisions_countStart_zero stF.collisions).1]
    simp
  · intro g2 cols' ms2 cols2 evs2 hreg h2
    obtain ⟨stF2, evsM2, hpm2, hcols2, hevs2⟩ := onUpdate_ok h2
    have hr := processManifolds_registered ms2 _ stF2 evsM2 hpm2 hreg
    rw [hevs2, List.countP_append, hr.2.1,
      (cleanOldCollisions_countStart_zero stF2.collisions).1]

theorem collisionstart_exactly_once_witness :
    List.countP (isStartE exEntityA exEntityB)
      [Event.contactEnt exEntityA exEntityB [createContactPointFromAmmo exCP],
       Event.collisionstart exEntityA exEntityB [createContactPointFromAmmo exCP],
       Event.contactEnt exEntityB exEntityA [createReverseContactPointFromAmmo exCP],
       Event.collisionstart exEntityB exEntityA
         [createReverseContactPointFromAmmo exCP]] = 1 ∧
    pairIn [{ entity := exEntityA, others := [exEntityB] },
      { entity := exEntityB, others := [exEntityA] }] exEntityA exEntityB = true ∧
    List.countP (isStartE exEntityA exEntityB)
      [Event.contactEnt exEntityA exEntityB [createContactPointFromAmmo exCP],
       Event.contactEnt exEntityB exEntityA
         [createReverseContactPointFromAmmo exCP]] = 0 := by
  have hinj : ∀ m ∈ [exManifold], ∀ e : Entity,
      (m.e0 = some e ∨ m.e1 = some e) → e.guid = exEntityA.guid → e = exEntityA := by
    intro m hm e he hg
    rw [List.mem_singleton] at hm
    subst hm
    rcases he with he | he
    · have hsome : some exEntityA = some e := he
      cases hsome
      rfl
    · have hsome : some exEntityB = some e := he
      cases hsome
      exact absurd hg (by decide)
  have hcoll : ∀ m ∈ [exManifold], storesPair m exEntityA exEntityB = true →
      (noResp m.flags0 || noResp m.flags1) = false := by
    intro m hm _
    rw [List.mem_singleton] at hm
    subst hm
    decide
  have h1 : onUpdate false [] [exManifold] = .ok
      ([{ entity := exEntityA, others := [exEntityB] },
        { entity := exEntityB, others := [exEntityA] }],
       [Event.contactEnt exEntityA exEntityB [createContactPointFromAmmo exCP],
        Event.collisionstart exEntityA exEntityB [createContactPointFromAmmo exCP],
        Event.contactEnt exEntityB exEntityA [createReverseContactPointFromAmmo exCP],
        Event.collisionstart exEntityB exEntityA
          [createReverseContactPointFromAmmo exCP]]) := rfl
  have h2 : onUpdate false
      [{ entity := exEntityA, others := [exEntityB] },
       { entity := exEntityB, others := [exEntityA] }] [exManifold] = .ok
      ([{ entity := exEntityA, others := [exEntityB] },
        { entity := exEntityB, others := [exEntityA] }],
       [Event.contactEnt exEntityA exEntityB [createContactPointFromAmmo exCP],
        Event.contactEnt exEntityB exEntityA
          [createReverseContactPointFromAmmo exCP]]) := rfl
  have hmain := collisionstart_exactly_once (by decide) hinj hcoll
    (List.mem_singleton.mpr rfl) rfl rfl (by decide) (by decide) (by decide) h1
  exact ⟨hmain.1, hmain.2.1, hmain.2.2 false _ _ _ _ hmain.2.1 h2⟩

/-! ### Claim C9 -/

/-- C9: in the trigger path, when a new pairing's `triggerenter` on A about B
is suppressed because the opposite side's body also carries the
no-collision-response flag, the pairing is nonetheless inserted into the
durable registry by that step; and from any state in which the pairing is
recorded, a step fires no `triggerenter` on A about B — so the suppressed
event never fires on any later step of the same continuous overlap. -/
theorem trigger_suppressed_pairing_still_registered {g : Bool}
    {cols cols1 : Registry} {ms1 : List Manifold} {evs1 : List Event}
    {m1 : Manifold} {A B : Entity}
    (hnew : pairIn cols A B = false)
    (hm1 : m1 ∈ ms1) (he0 : m1.e0 = some A) (he1 : m1.e1 = some B)
    (hc : 0 < m1.contacts.length)
    (hflagB : noResp m1.flags1 = true)
    (hlisten : (hasEvtB A "triggerenter" || hasEvtB A "triggerleave") = true)
    (h1 : onUpdate g cols ms1 = .ok (cols1, evs1)) :
    pairIn cols1 A B = true ∧
    (∀ g2 cols' ms2 cols2 evs2, pairIn cols' A B = true →
      onUpdate g2 cols' ms2 = .ok (cols2, evs2) →
      List.countP (isEnterE A B) evs2 = 0) := by
  obtain ⟨stF, evsM, hpm1, hcols1, hevs1⟩ := onUpdate_ok h1
  have htr : (noResp m1.flags0 || noResp m1.flags1) = true := by
    rw [hflagB]
    simp
  have hstore : ∀ st1 st2 evsX, processManifold g st1 m1 = .ok (st2, evsX) →
      pairIn st2.collisions A B = true ∧ pairIn st2.frameCollisions A B = true :=
    fun st1 st2 evsX hh => processManifold_stores_trigger hh he0 he1 hc htr hlisten
  obtain ⟨hregCol, hregFrame⟩ :=
    processManifolds_stores hstore ms1 _ stF evsM hpm1 hm1
  constructor
  · rw [hcols1]
    exact cleanOldCollisions_keep hregFrame stF.collisions hregCol
  · intro g2 cols' ms2 cols2 evs2 hreg h2
    obtain ⟨stF2, evsM2, hpm2, hcols2, hevs2⟩ := onUpdate_ok h2
    have hr := processManifolds_registered ms2 _ stF2 evsM2 hpm2 hreg
    rw [hevs2, List.countP_append, hr.2.2,
      (cleanOldCollisions_countStart_zero stF2.collisions).2]

theorem trigger_suppressed_pairing_still_registered_witness :
    pairIn [{ entity := exTrigA, others := [exVolB] }] exTrigA exVolB = true ∧
    List.countP (isEnterE exTrigA exVolB) [Event.triggerleave exTrigA exVolB] = 0 := by
  have h1 : onUpdate false [] [exTrigManifold]
      = .ok ([{ entity := exTrigA, others := [exVolB] }], []) := rfl
  have hmain := trigger_suppressed_pairing_still_registered (by decide)
    (List.mem_singleton.mpr rfl) rfl rfl (by decide) (by decide) (by decide) h1
  refine ⟨hmain.1, ?_⟩
  have h2 : onUpdate false [{ entity := exTrigA, others := [exVolB] }] []
      = .ok ([], [Event.triggerleave exTrigA exVolB]) := rfl
  exact hmain.2 false [{ entity := exTrigA, others := [exVolB] }] [] []
    [Event.triggerleave exTrigA exVolB] hmain.1 h2

/-! ### Claim C4 -/

/-- C4: in the trigger path, a side A with a trigger listener fires
`triggerenter` about B iff the pairing was absent from the durable registry
before the manifold was handled and the opposite side's body does not carry
the no-collision-response flag; by contrast the `triggerleave` fired during
reconciliation is characterised purely by removal of the pairing and the
presence of the two collision components, the failed both-rigidbodies test and
the owning side's trigger marker — the opposite side's collision flags are not
consulted at all (the reconciliation has no access to them). -/
theorem triggerenter_guard_asymmetry {g : Bool} {st st' : FrameState}
    {m : Manifold} {evs : List Event} {A B : Entity}
    (h : processManifold g st m = .ok (st', evs))
    (he0 : m.e0 = some A) (he1 : m.e1 = some B)
    (hc : 0 < m.contacts.length)
    (htr : (noResp m.flags0 || noResp m.flags1) = true)
    (hgne : ¬A.guid = B.guid)
    (hlisten : (hasEvtB A "triggerenter" || hasEvtB A "triggerleave") = true) :
    ((Event.triggerenter A B ∈ evs) ↔
      (pairIn st.collisions A B = false ∧ noResp m.flags1 = false)) ∧
    (∀ frame E O others, Event.triggerleave E O ∈ (cleanOthers frame E others).2 ↔
      (O ∈ others ∧ staysB frame E.guid O = false ∧ E.hasCollision = true ∧
        O.hasCollision = true ∧ ¬(E.hasRigidbody = true ∧ O.hasRigidbody = true) ∧
        E.hasTrigger = true)) := by
  refine ⟨?_, fun frame E O others => cleanOthers_leave_mem frame E O others⟩
  rw [processManifold_some he0 he1, if_pos hc, if_pos htr] at h
  obtain ⟨hc0, hc1, hsh⟩ := processTrigger_ok_shape h
  have hside0 : (Event.triggerenter A B ∈ (triggerSide st A B m.flags1).2) ↔
      (pairIn st.collisions A B = false ∧ noResp m.flags1 = false) := by
    rw [triggerSide_snd, storeCollision_isNew]
    cases hp : pairIn st.collisions A B with
    | true => simp [hp]
    | false =>
      cases hnr : noResp m.flags1 with
      | true => simp [hp, hnr]
      | false => simp [hp, hnr, hc0]
  have hside1 : ∀ s : FrameState,
      Event.triggerenter A B ∉ (triggerSide s B A m.flags0).2 := by
    intro s
    rw [triggerSide_snd]
    split
    · rw [List.mem_singleton]
      intro hh
      injection hh with h1 h2
      exact hgne (by rw [h1])
    · simp
  rcases hsh with ⟨hb0, hb1, hst, hevs⟩ | ⟨hb0, hb1, hst, hevs⟩ |
    ⟨hb0, hb1, hst, hevs⟩ | ⟨hb0, hb1, hst, hevs⟩ <;> subst hevs
  · rw [List.mem_append]
    constructor
    · rintro (hmem | hmem)
      · exact hside0.mp hmem
      · exact absurd hmem (hside1 _)
    · intro hcond
      exact Or.inl (hside0.mpr hcond)
  · exact hside0
  · rw [hlisten] at hb0
    cases hb0
  · rw [hlisten] at hb0
    cases hb0

theorem triggerenter_guard_asymmetry_witness :
    ((Event.triggerenter exTrigA exVolB ∈ [Event.triggerenter exTrigA exVolB]) ↔
      (pairIn ([] : Registry) exTrigA exVolB = false ∧
        noResp exTrigMixed.flags1 = false)) ∧
    ((Event.triggerleave exTrigA exVolB ∈ (cleanOthers [] exTrigA [exVolB]).2) ↔
      (exVolB ∈ [exVolB] ∧ staysB [] exTrigA.guid exVolB = false ∧
        exTrigA.hasCollision = true ∧ exVolB.hasCollision = true ∧
        ¬(exTrigA.hasRigidbody = true ∧ exVolB.hasRigidbody = true) ∧
        exTrigA.hasTrigger = true)) := by
  have h : processManifold false { collisions := [], frameCollisions := [] } exTrigMixed
      = .ok ({ collisions := [{ entity := exTrigA, others := [exVolB] }],
               frameCollisions := [{ entity := exTrigA, others := [exVolB] }] },
             [Event.triggerenter exTrigA exVolB]) := rfl
  have hmain := triggerenter_guard_asymmetry h rfl rfl (by decide) (by decide)
    (by decide) (by decide)
  exact ⟨hmain.1, hmain.2 [] exTrigA exVolB [exVolB]⟩

/-! ### Claim C2 -/

/-- C2 (counterexample): the durable registry holds the pairing of rigid-body
entity `exEntityA` (which is not a trigger) with trigger-volume entity
`exVolB` — the state produced when a rigid body with trigger listeners
overlaps a trigger volume.  A step with no manifolds removes the pairing but
fires no event whatsoever (`.ok ([], [])`): neither the `collisionend` the
claim requires for a non-trigger owning side, nor a `triggerleave`, because
the sides are not both rigid bodies and the owning side is not a trigger. -/
theorem collisionend_missing_counterexample :
    onUpdate false [{ entity := exEntityA, others := [exVolB] }] [] = .ok ([], []) ∧
    exEntityA.hasTrigger = false ∧
    exEntityA.hasCollision = true ∧ exVolB.hasCollision = true := by
  refine ⟨rfl, rfl, rfl, rfl⟩

/-- C2 (amended): a pairing (A, B) recorded in the durable registry whose pair
is stored by no manifold of the next step is removed from the durable entry's
others set, the entry is deleted when it empties (the resulting registry never
holds an entry with an empty others set), and the step fires exactly one
`collisionend` when both entities have collision components and both have
rigidbody components, exactly one `triggerleave` when both have collision
components, not both have rigidbodies, and the owning entity is a trigger, and
no end event otherwise. -/
theorem collisionend_on_disappearance {g : Bool} {cols cols' : Registry}
    {ms : List Manifold} {evs : List Event} {A B : Entity} {en : Entry}
    (hen : findEntry cols A.guid = some en) (hent : en.entity = A)
    (hcnt : en.others.count B = 1)
    (hnd : (regGuids cols).Nodup)
    (habs : ∀ m ∈ ms, storesPair m A B = false)
    (h : onUpdate g cols ms = .ok (cols', evs)) :
    List.countP (isEndE A B) evs =
      (if A.hasCollision && B.hasCollision && A.hasRigidbody && B.hasRigidbody
       then 1 else 0) ∧
    List.countP (isLeaveE A B) evs =
      (if A.hasCollision && B.hasCollision && !(A.hasRigidbody && B.hasRigidbody)
         && A.hasTrigger then 1 else 0) ∧
    pairIn cols' A B = false ∧
    (∀ en' ∈ cols', ¬en'.others = []) := by
  obtain ⟨stF, evsM, hpm, hcols', hevs⟩ := onUpdate_ok h
  have hP : (∃ en', findEntry stF.collisions A.guid = some en' ∧ en'.entity = A ∧
      en'.others.count B = 1) ∧ pairIn stF.frameCollisions A B = false ∧
      (regGuids stF.collisions).Nodup := by
    refine @processManifolds_state_pres g
      (fun s => (∃ en', findEntry s.collisions A.guid = some en' ∧ en'.entity = A ∧
        en'.others.count B = 1) ∧ pairIn s.frameCollisions A B = false ∧
        (regGuids s.collisions).Nodup)
      ms { collisions := cols, frameCollisions := [] } stF evsM hpm
      ⟨⟨en, hen, hent, hcnt⟩, rfl, hnd⟩ ?_
    rintro m hm s e o ⟨⟨en', hfind, hent', hcnt'⟩, hf, hnd'⟩ hpair
    rcases hpair with ⟨h0, h1⟩ | ⟨h0, h1⟩
    · have hne := (storesPair_false_elim h0 h1 (habs m hm)).1
      exact ⟨storeCollision_entryKeep e o hne hfind hent' hcnt',
        storeCollision_false_frame hne hf, storeCollision_nodupGuids e o hnd'⟩
    · have hne := (storesPair_false_elim h0 h1 (habs m hm)).2
      exact ⟨storeCollision_entryKeep e o hne hfind hent' hcnt',
        storeCollision_false_frame hne hf, storeCollision_nodupGuids e o hnd'⟩
  obtain ⟨⟨enF, hfindF, hentF, hcntF⟩, hfF, hndF⟩ := hP
  have hstay : staysB stF.frameCollisions A.guid B = false := by
    rw [staysB_eq_pairIn]
    exact hfF
  obtain ⟨hend, hleave, hpair⟩ :=
    cleanOldCollisions_spec hstay stF.collisions hndF enF hfindF hentF hcntF
  have hM_end : List.countP (isEndE A B) evsM = 0 := by
    rw [List.countP_eq_zero]
    intro ev hev hcontra
    have hk := isEndE_imp_kind ev hcontra
    rw [processManifolds_no_end ms _ stF evsM hpm ev hev] at hk
    cases hk
  have hM_leave : List.countP (isLeaveE A B) evsM = 0 := by
    rw [List.countP_eq_zero]
    intro ev hev hcontra
    have hk := isLeaveE_imp_kind ev hcontra
    rw [processManifolds_no_end ms _ stF evsM hpm ev hev] at hk
    cases hk
  refine ⟨?_, ?_, ?_, ?_⟩
  · rw [hevs, List.countP_append, hM_end, hend, endEvents_countP_end, Nat.zero_add]
  · rw [hevs, List.countP_append, hM_leave, hleave, endEvents_countP_leave, Nat.zero_add]
  · rw [hcols']
    exact hpair
  · rw [hcols']
    exact cleanOldCollisions_no_empty stF.frameCollisions stF.collisions

theorem collisionend_on_disappearance_witness :
    List.countP (isEndE exEntityA exEntityB)
      [Event.collisionend exEntityA exEntityB] =
      (if exEntityA.hasCollision && exEntityB.hasCollision && exEntityA.hasRigidbody
          && exEntityB.hasRigidbody then 1 else 0) ∧
    List.countP (isLeaveE exEntityA exEntityB)
      [Event.collisionend exEntityA exEntityB] =
      (if exEntityA.hasCollision && exEntityB.hasCollision
          && !(exEntityA.hasRigidbody && exEntityB.hasRigidbody)
          && exEntityA.hasTrigger then 1 else 0) ∧
    pairIn [] exEntityA exEntityB = false ∧
    (∀ en' ∈ ([] : Registry), ¬en'.others = []) := by
  have h : onUpdate false [{ entity := exEntityA, others := [exEntityB] }] []
      = .ok ([], [Event.collisionend exEntityA exEntityB]) := rfl
  exact @collisionend_on_disappearance false
    [{ entity := exEntityA, others := [exEntityB] }] []
    [] [Event.collisionend exEntityA exEntityB] exEntityA exEntityB
    { entity := exEntityA, others := [exEntityB] }
    rfl rfl (by decide) (by decide) (by intro m hm; simp at hm) h

end RigidBody
